import Mathlib

/-!
Verification of the schema updater of a Cloud Spanner emulator
(`backend/schema/updater/schema_updater.cc`).

The development is a shallow embedding of the statement applier and the
updater driver.  Statements are taken as parsed DDL ASTs (the DDL text
parser is an external collaborator of the component under specification).
The immutable schema-graph machinery (graph editor, canonicalization) is
outside the given source file; following the design notes of the
specification, cross references between nodes are represented as handles
(ids or names) and node edits become functional record updates carried out
directly on the schema value.  Parts of the repository that the source file
uses but that are not part of it (catalog lookups, the global name
registry, limits, the index backfill action) are modelled from the
specification and marked as such in their doc comments.
-/

/-- ASCII lowercasing of one character (the name comparisons of the
source are ASCII case-insensitive). -/
def lowerChar (c : Char) : Char :=
  if 65 ≤ c.toNat ∧ c.toNat ≤ 90 then Char.ofNat (c.toNat + 32) else c

/-- Case-insensitive string comparison, modelling the case-insensitive name
comparisons used for schema object resolution (spec section 9: name
comparison rules). -/
def ciEq (a b : String) : Bool :=
  a.data.map lowerChar == b.data.map lowerChar

theorem ciEq_refl (a : String) : ciEq a a = true := by
  simp [ciEq]

theorem ciEq_symm {a b : String} (h : ciEq a b = true) : ciEq b a = true := by
  simp [ciEq] at *; exact h.symm

theorem ciEq_of_ciEq_ciEq {a b c : String} (h₁ : ciEq a b = true)
    (h₂ : ciEq b c = true) : ciEq a c = true := by
  simp [ciEq] at *; exact h₁.trans h₂

theorem ciEq_false_of_ciEq {a b c : String} (h₁ : ciEq a b = true)
    (h₂ : ciEq a c = false) : ciEq b c = false := by
  simp [ciEq] at *; intro h; exact h₂ (h₁.trans h)

namespace Ddl

/-- Part of a `ddl::PrimaryKeyConstraint`: a key column name together with
the flag recording whether the declared order is `DESC`. -/
structure KeyPart where
  key_column_name : String
  desc : Bool := false
deriving DecidableEq

/-- Models `ddl::PrimaryKeyConstraint`. -/
structure PrimaryKeyConstraint where
  key_part : List KeyPart := []
deriving DecidableEq

/-- Models `ddl::InterleaveConstraint`; `on_delete_cascade` records whether
the on-delete action is `CASCADE`. -/
structure InterleaveConstraint where
  parent : String
  on_delete_cascade : Bool := false
deriving DecidableEq

/-- Models `ddl::ForeignKeyConstraint`. -/
structure ForeignKeyConstraint where
  constraint_name : Option String := none
  referenced_table_name : String
  referencing_column_name : List String := []
  referenced_column_name : List String := []
deriving DecidableEq

/-- Models the `ddl::Constraint` oneof used on tables and indexes.  The
`unsupported` case stands for every other `kind_case` value, which the
applier rejects with an internal error. -/
inductive Constraint where
  | primaryKey (pk : PrimaryKeyConstraint)
  | interleave (ic : InterleaveConstraint)
  | foreignKey (fk : ForeignKeyConstraint)
  | unsupported
deriving DecidableEq

/-- Models a `ddl::Options::Option` value: the recognized kinds are a bool
value and a null value; everything else trips a `RET_CHECK`. -/
inductive OptionVal where
  | boolValue (b : Bool)
  | nullValue
  | otherValue
deriving DecidableEq

/-- Models one entry of `ddl::Options`. -/
structure OptionEntry where
  name : String
  val : OptionVal
deriving DecidableEq

/-- Models a sub-constraint of a `ddl::ColumnDefinition`:  `NOT NULL`
(carrying the proto `nullable` payload) or a column length bound; the
`otherKind` case stands for every other `kind_case`, rejected with an
internal error. -/
inductive ColConstraint where
  | notNull (nullable : Bool)
  | columnLength (max_length : Nat)
  | otherKind
deriving DecidableEq

/-- Models `ddl::ColumnDefinition::Properties`; the type descriptor is kept
as an opaque string (resolution through the type factory is external). -/
structure ColumnProperties where
  column_type : Option String := none
  stored : Option String := none
deriving DecidableEq

/-- Models `ddl::ColumnDefinition`. -/
structure ColumnDefinition where
  column_name : String
  properties : Option ColumnProperties := none
  constraints : List ColConstraint := []
  options : Option (List OptionEntry) := none
deriving DecidableEq

/-- Models `ddl::CreateTable`. -/
structure CreateTable where
  table_name : String
  columns : List ColumnDefinition := []
  constraints : List Constraint := []
deriving DecidableEq

/-- Models `ddl::CreateIndex::Properties` (the `unique` and
`null_filtered` flags). -/
structure IndexProperties where
  is_unique : Bool := false
  null_filtered : Bool := false
deriving DecidableEq

/-- Models `ddl::CreateIndex`; `columns` holds the stored-column
definitions. -/
structure CreateIndex where
  index_name : String
  table_name : String
  properties : IndexProperties := {}
  constraints : List Constraint := []
  columns : List ColumnDefinition := []
deriving DecidableEq

/-- Models `ddl::AlterColumn::Type`. -/
inductive AlterColumnType where
  | add
  | alter
  | drop
  | otherType
deriving DecidableEq

/-- Models `ddl::AlterColumn`. -/
structure AlterColumn where
  type : AlterColumnType
  column_name : String := ""
  column : ColumnDefinition := { column_name := "" }
deriving DecidableEq

/-- Models `ddl::AlterConstraint::Type`. -/
inductive AlterConstraintType where
  | add
  | alter
  | drop
deriving DecidableEq

/-- Models `ddl::AlterConstraint`. -/
structure AlterConstraint where
  type : AlterConstraintType
  constraint : Option Constraint := none
  constraint_name : Option String := none
deriving DecidableEq

/-- Models `ddl::AlterTable`. -/
structure AlterTable where
  table_name : String
  alter_column : Option AlterColumn := none
  alter_constraint : Option AlterConstraint := none
deriving DecidableEq

/-- Models `ddl::DropTable`. -/
structure DropTable where
  table_name : String
deriving DecidableEq

/-- Models `ddl::DropIndex`. -/
structure DropIndex where
  index_name : String
deriving DecidableEq

/-- Models the `ddl::DDLStatement` oneof after parsing. -/
inductive DDLStatement where
  | createTable (ct : CreateTable)
  | createIndex (ci : CreateIndex)
  | alterTable (a : AlterTable)
  | dropTable (d : DropTable)
  | dropIndex (d : DropIndex)
deriving DecidableEq

/-- Name of the single recognized column option.  Modelled from the spec:
the constant `ddl::kCommitTimestampOptionName` of the DDL parser is not
part of the given source; the spec lists `commit_timestamp` as the one
recognized option. -/
def commitTimestampOptionName : String := "commit_timestamp"

end Ddl

/-- Catalog `Column` node.  Cross references are handles: `source_column`
holds the id of the source column for index data table columns. -/
structure Column where
  id : Nat := 0
  name : String := ""
  sqlType : Option String := none
  nullable : Bool := true
  declared_max_length : Option Nat := none
  allow_commit_timestamp : Option Bool := none
  source_column : Option Nat := none
deriving DecidableEq

/-- Catalog `KeyColumn` node: a column reference plus the descending
flag.  The referenced column is stored by value (nodes are immutable). -/
structure KeyColumn where
  column : Column
  descending : Bool := false
deriving DecidableEq

/-- Catalog `ForeignKey` node; table references are stored by name. -/
structure ForeignKey where
  constraint_name : Option String := none
  generated_name : Option String := none
  referencing_table_name : String := ""
  referenced_table_name : String := ""
  referencing_columns : List Column := []
  referenced_columns : List Column := []
deriving DecidableEq

/-- Effective name of a foreign key: the user-declared constraint name when
present, otherwise the generated name.  Modelled from the spec: the
`ForeignKey` catalog class is not part of the given source. -/
def ForeignKey.effectiveName (fk : ForeignKey) : String :=
  fk.constraint_name.getD (fk.generated_name.getD "")

/-- Catalog `Table` node.  `parent`, `children`, `owner_index` and
`indexes` store names as handles; `on_delete_cascade` records the on-delete
action (`true` = CASCADE, `false` = NO ACTION). -/
structure Table where
  id : Nat := 0
  name : String := ""
  columns : List Column := []
  primary_key : List KeyColumn := []
  parent : Option String := none
  children : List String := []
  on_delete_cascade : Bool := false
  owner_index : Option String := none
  foreign_keys : List ForeignKey := []
  referencing_foreign_keys : List ForeignKey := []
  indexes : List String := []
deriving DecidableEq

/-- Appends a column to a table builder (`Table::Builder::add_column`). -/
def Table.add_column (t : Table) (c : Column) : Table :=
  { t with columns := t.columns ++ [c] }

/-- Appends a key column to a table builder
(`Table::Builder::add_key_column`). -/
def Table.add_key_column (t : Table) (k : KeyColumn) : Table :=
  { t with primary_key := t.primary_key ++ [k] }

/-- Case-insensitive column lookup (`Table::FindColumn`).  Modelled from
the spec: the `Table` catalog class is not part of the given source; spec
section 4.6 describes `find_column` as case-insensitive. -/
def Table.FindColumn (t : Table) (column_name : String) : Option Column :=
  t.columns.find? (fun c => ciEq c.name column_name)

/-- Case-sensitive column lookup (`Table::FindColumnCaseSensitive`).
Modelled from the spec: a case-insensitive find whose result is accepted
only when the stored name matches exactly. -/
def Table.FindColumnCaseSensitive (t : Table) (column_name : String) :
    Option Column :=
  match t.FindColumn column_name with
  | some c => if c.name = column_name then some c else none
  | none => none

/-- Case-insensitive foreign-key lookup on a table
(`Table::FindForeignKey`).  Modelled from the spec: constraint names are
global names and global-name comparison is case-insensitive. -/
def Table.FindForeignKey (t : Table) (constraint_name : String) :
    Option ForeignKey :=
  t.foreign_keys.find? (fun fk => ciEq fk.effectiveName constraint_name)

/-- Catalog `Index` node. -/
structure Index where
  name : String := ""
  is_unique : Bool := false
  null_filtered : Bool := false
  indexed_table_name : String := ""
  index_data_table : Option Table := none
  key_columns : List KeyColumn := []
  stored_columns : List Column := []
deriving DecidableEq

/-- Schema snapshot: the tables and indexes of the graph, with index data
tables owned by their `Index` record.  Modelled from the spec: the `Schema`
catalog class is not part of the given source. -/
structure Schema where
  tables : List Table := []
  indexes : List Index := []
deriving DecidableEq

/-- Case-insensitive table lookup (`Schema::FindTable`).  Modelled from the
spec, section 4.1. -/
def Schema.FindTable (s : Schema) (table_name : String) : Option Table :=
  s.tables.find? (fun t => ciEq t.name table_name)

/-- Case-sensitive table lookup (`Schema::FindTableCaseSensitive`).
Modelled from the spec: the case-insensitive find accepted only on an exact
name match. -/
def Schema.FindTableCaseSensitive (s : Schema) (table_name : String) :
    Option Table :=
  match s.FindTable table_name with
  | some t => if t.name = table_name then some t else none
  | none => none

/-- Case-insensitive index lookup (`Schema::FindIndex`).  Modelled from the
spec, section 4.1. -/
def Schema.FindIndex (s : Schema) (index_name : String) : Option Index :=
  s.indexes.find? (fun i => ciEq i.name index_name)

/-- Number of indexes in the snapshot (`Schema::num_index`). -/
def Schema.num_index (s : Schema) : Nat := s.indexes.length

/-- Replaces the table with the given id by its image under `f`
(the model of a graph-editor `EditNode` on a `Table` followed by
canonicalization into the snapshot). -/
def Schema.updateTable (s : Schema) (id : Nat) (f : Table → Table) : Schema :=
  { s with tables := s.tables.map (fun t => if t.id = id then f t else t) }

/-- Errors surfaced by the updater (`common/errors.h` construction sites in
the source; payloads follow the spec error list in section 6). -/
inductive Err where
  | EmptyDDLStatement
  | TableNotFound (name : String)
  | IndexNotFound (name : String)
  | ColumnNotFound (table_name : String) (column_name : String)
  | NonExistentKeyColumn (object_kind : String) (object_name : String)
      (column_name : String)
  | IndexInterleaveTableNotFound (index_name : String) (parent_name : String)
  | IndexRefsNonExistentColumn (index_name : String) (column_name : String)
  | ForeignKeyColumnNotFound (column_name : String) (table_name : String)
      (foreign_key_name : String)
  | DuplicateName (kind : String) (name : String)
  | TooManyTablesPerDatabase (table_name : String) (limit : Nat)
  | TooManyIndicesPerDatabase (index_name : String) (limit : Nat)
  | ConstraintNotFound (constraint_name : String) (table_name : String)
  | Internal (msg : String)
deriving DecidableEq

/-- Deferred schema-change action registered in the per-statement
validation context; the source registers an index backfill for each
`CREATE INDEX`. -/
inductive SchemaAction where
  | backfillIndex (index_name : String)
deriving DecidableEq

/-- Global name registry entries: a (kind, name) pair.  Modelled from the
spec (section 4.3): tables, indexes and foreign keys share one
case-insensitive namespace. -/
abbrev GlobalNames := List (String × String)

/-- Registers a global name (`GlobalSchemaNames::AddName`).  Modelled from
the spec: inserts into a case-insensitive set and fails with
`DuplicateName` when a name with the same case-insensitive spelling is
already present, whatever its kind. -/
def GlobalNames.AddName (names : GlobalNames) (kind : String)
    (name : String) : Except Err GlobalNames :=
  if names.any (fun p => ciEq p.2 name) then
    .error (.DuplicateName kind name)
  else
    .ok (names ++ [(kind, name)])

/-- Synthesizes a fresh foreign-key name
(`GlobalSchemaNames::GenerateForeignKeyName`).  Modelled from the spec:
a deterministic synthetic name over the two table names, uniquified with a
counter suffix when needed; among `names.length + 1` candidates one is
always free. -/
def GlobalNames.GenerateForeignKeyName (names : GlobalNames)
    (referencing referenced : String) : String :=
  let candidate := fun (k : Nat) =>
    "FK_" ++ referencing ++ "_" ++ referenced ++ "_" ++ toString k
  let free := fun (k : Nat) =>
    !(names.any (fun p => ciEq p.2 (candidate k)))
  match (List.range (names.length + 1)).find? free with
  | some k => candidate k
  | none => candidate 0

/-- Mutable state threaded through `SchemaUpdaterImpl`: the latest schema
snapshot, the global name registry, the two id generators (modelled as
counters) and the per-statement queue of deferred actions.  The two limits
are modelled from the spec: `limits::kMaxTablesPerDatabase` and
`limits::kMaxIndexesPerDatabase` are named constants of `common/limits.h`,
which is not part of the given source and whose numeric values the spec
leaves symbolic; they are carried as state so that the theorems quantify
over them. -/
structure ImplState where
  latest_schema : Schema := {}
  global_names : GlobalNames := []
  next_table_id : Nat := 0
  next_column_id : Nat := 0
  pending : List SchemaAction := []
  maxTables : Nat := 0
  maxIndexes : Nat := 0
deriving DecidableEq

namespace SchemaUpdaterImpl

/-- Models `SchemaUpdaterImpl::CreateColumnOptions`: folds the option list,
keeping the last recognized commit-timestamp setting; an option with any
other name, or with a payload that is neither a bool nor null, trips a
`RET_CHECK` (internal error). -/
def CreateColumnOptions : List Ddl.OptionEntry → Option Bool →
    Except Err (Option Bool)
  | [], acc => .ok acc
  | o :: rest, acc =>
    if o.name = Ddl.commitTimestampOptionName then
      match o.val with
      | .boolValue b => CreateColumnOptions rest (some b)
      | .nullValue => CreateColumnOptions rest none
      | .otherValue =>
        .error (.Internal "option can only take bool_value or null_value")
    else
      .error (.Internal "invalid column option")

/-- Applies the sub-constraints of a column definition to a column draft
(the loop body of `SchemaUpdaterImpl::SetColumnDefinition`). -/
def applyColConstraints : List Ddl.ColConstraint → Column →
    Except Err Column
  | [], c => .ok c
  | .notNull b :: rest, c =>
    applyColConstraints rest { c with nullable := b }
  | .columnLength n :: rest, c =>
    applyColConstraints rest { c with declared_max_length := some n }
  | .otherKind :: _, _ => .error (.Internal "unexpected constraint")

/-- Type step of `SchemaUpdaterImpl::SetColumnDefinition`: the declared
type, when present, is resolved through the type factory
(`DDLColumnTypeToGoogleSqlType`, external, modelled as the identity on the
type descriptor) and written to the draft. -/
def setColumnType (ddl_column : Ddl.ColumnDefinition) (c : Column) :
    Column :=
  match ddl_column.properties with
  | some props =>
    match props.column_type with
    | some t => { c with sqlType := some t }
    | none => c
  | none => c

/-- Models `SchemaUpdaterImpl::SetColumnDefinition`, shared by CREATE TABLE
columns and both ALTER COLUMN forms.  The C++ template parameter
(`Column::Builder` or `Column::Editor`) is a modifier of a column draft;
the model operates on the draft directly. -/
def SetColumnDefinition (ddl_column : Ddl.ColumnDefinition) (c : Column) :
    Except Err Column :=
  match applyColConstraints ddl_column.constraints
      { setColumnType ddl_column c with
        nullable := true, declared_max_length := none } with
  | .error e => .error e
  | .ok c =>
    match ddl_column.options with
    | some opts =>
      match CreateColumnOptions opts none with
      | .error e => .error e
      | .ok allows_commit_ts =>
        .ok { c with allow_commit_timestamp := allows_commit_ts }
    | none => .ok c

/-- Models `SchemaUpdaterImpl::CreateColumn`: mints a fresh column id,
names the column and applies the definition.  Registering the column node
with the graph editor (`AddNode`) needs no model step because the column
value is attached to its table by the caller. -/
def CreateColumn (st : ImplState) (ddl_column : Ddl.ColumnDefinition) :
    Except Err (Column × ImplState) :=
  let base : Column :=
    { id := st.next_column_id, name := ddl_column.column_name }
  match SetColumnDefinition ddl_column base with
  | .error e => .error e
  | .ok c => .ok (c, { st with next_column_id := st.next_column_id + 1 })

/-- Models `SchemaUpdaterImpl::CreateInterleaveConstraint`: resolves the
parent table case-insensitively in the latest snapshot; a missing parent
is `TableNotFound` for an ordinary table and
`IndexInterleaveTableNotFound` for an index data table.  On success the
parent gains a child link and the builder records its parent and on-delete
action. -/
def CreateInterleaveConstraint (st : ImplState)
    (interleave : Ddl.InterleaveConstraint) (builder : Table) :
    Except Err (Table × ImplState) :=
  match st.latest_schema.FindTable interleave.parent with
  | none =>
    match builder.owner_index with
    | none => .error (.TableNotFound interleave.parent)
    | some owner_name =>
      .error (.IndexInterleaveTableNotFound owner_name interleave.parent)
  | some parent =>
    match builder.parent with
    | some _ => .error (.Internal "parent already set")
    | none =>
      let schema := st.latest_schema.updateTable parent.id
        (fun p => { p with children := p.children ++ [builder.name] })
      let builder := { builder with
        parent := some parent.name,
        on_delete_cascade := interleave.on_delete_cascade }
      .ok (builder, { st with latest_schema := schema })

/-- Owner kind of a table for the `NonExistentKeyColumn` error
(`OwningObjectType` in the source): the owning index when the table is an
index data table, otherwise the table itself.  Modelled from the spec
error list. -/
def owningObjectType (t : Table) : String :=
  match t.owner_index with
  | some _ => "Index"
  | none => "Table"

/-- Owner name of a table for the `NonExistentKeyColumn` error
(`OwningObjectName` in the source). -/
def owningObjectName (t : Table) : String :=
  match t.owner_index with
  | some owner_name => owner_name
  | none => t.name

/-- Models `SchemaUpdaterImpl::CreatePrimaryKeyColumn`: a key part is
resolved by case-sensitive column lookup on the builder table and turned
into a `KeyColumn` carrying the descending flag. -/
def CreatePrimaryKeyColumn (table : Table) (ddl_key_part : Ddl.KeyPart) :
    Except Err KeyColumn :=
  match table.FindColumnCaseSensitive ddl_key_part.key_column_name with
  | none =>
    .error (.NonExistentKeyColumn (owningObjectType table)
      (owningObjectName table) ddl_key_part.key_column_name)
  | some column => .ok { column := column, descending := ddl_key_part.desc }

/-- Models `SchemaUpdaterImpl::CreatePrimaryKeyConstraint`: resolves each
key part against the builder in turn and attaches the resulting key
columns. -/
def CreatePrimaryKeyConstraint : List Ddl.KeyPart → Table →
    Except Err Table
  | [], builder => .ok builder
  | p :: rest, builder =>
    match CreatePrimaryKeyColumn builder p with
    | .error e => .error e
    | .ok key_col =>
      CreatePrimaryKeyConstraint rest (builder.add_key_column key_col)

end SchemaUpdaterImpl

namespace SchemaUpdaterImpl

/-- Resolution of the referenced table of a foreign key (the lookup block
of `SchemaUpdaterImpl::CreateForeignKeyConstraint`): case-sensitive lookup
in the latest snapshot; when it fails, a referenced name equal to the
referencing table name means a self-referencing foreign key, and any other
name is `TableNotFound`. -/
def resolveReferencedTable (s : Schema) (referenced_table_name : String)
    (referencing_table : Table) : Except Err Table :=
  match s.FindTableCaseSensitive referenced_table_name with
  | some t => .ok t
  | none =>
    if referenced_table_name ≠ referencing_table.name then
      .error (.TableNotFound referenced_table_name)
    else
      .ok referencing_table

/-- Column resolution loop of a foreign key (the `add_columns` lambda in
`SchemaUpdaterImpl::CreateForeignKeyConstraint`): each named column is
looked up case-sensitively; a missing column is
`ForeignKeyColumnNotFound`. -/
def resolveForeignKeyColumns (table : Table) (foreign_key_name : String) :
    List String → Except Err (List Column)
  | [] => .ok []
  | n :: rest =>
    match table.FindColumnCaseSensitive n with
    | none => .error (.ForeignKeyColumnNotFound n table.name foreign_key_name)
    | some c =>
      match resolveForeignKeyColumns table foreign_key_name rest with
      | .error e => .error e
      | .ok cs => .ok (c :: cs)

/-- Models `SchemaUpdaterImpl::CreateForeignKeyConstraint`.  The graph
editor registrations of the partially built node (`add_foreign_key` on the
referencing table, `add_referencing_foreign_key` on the referenced table)
become attachments of the finished foreign key: the updated referencing
table is returned to the caller (it may be an unfinished builder during
CREATE TABLE), and a referenced table that already lives in the snapshot is
updated in place. -/
def CreateForeignKeyConstraint (st : ImplState)
    (ddl_foreign_key : Ddl.ForeignKeyConstraint)
    (referencing_table : Table) :
    Except Err (ForeignKey × Table × ImplState) :=
  match resolveReferencedTable st.latest_schema
      ddl_foreign_key.referenced_table_name referencing_table with
  | .error e => .error e
  | .ok referenced_table =>
    let named : Except Err (GlobalNames × Option String × Option String) :=
      match ddl_foreign_key.constraint_name with
      | some n =>
        match st.global_names.AddName "Foreign Key" n with
        | .error e => .error e
        | .ok names => .ok (names, some n, none)
      | none =>
        let g := st.global_names.GenerateForeignKeyName
          referencing_table.name referenced_table.name
        .ok (st.global_names ++ [("Foreign Key", g)], none, some g)
    match named with
    | .error e => .error e
    | .ok (names, constraint_name, generated_name) =>
      let foreign_key_name := constraint_name.getD (generated_name.getD "")
      match resolveForeignKeyColumns referencing_table foreign_key_name
          ddl_foreign_key.referencing_column_name with
      | .error e => .error e
      | .ok referencing_columns =>
        match resolveForeignKeyColumns referenced_table foreign_key_name
            ddl_foreign_key.referenced_column_name with
        | .error e => .error e
        | .ok referenced_columns =>
          let fk : ForeignKey :=
            { constraint_name := constraint_name,
              generated_name := generated_name,
              referencing_table_name := referencing_table.name,
              referenced_table_name := referenced_table.name,
              referencing_columns := referencing_columns,
              referenced_columns := referenced_columns }
          let self := referenced_table.name = referencing_table.name
          let referencing' :=
            { referencing_table with
              foreign_keys := referencing_table.foreign_keys ++ [fk],
              referencing_foreign_keys :=
                if self then
                  referencing_table.referencing_foreign_keys ++ [fk]
                else referencing_table.referencing_foreign_keys }
          let schema :=
            if self then st.latest_schema
            else st.latest_schema.updateTable referenced_table.id
              (fun t => { t with referencing_foreign_keys :=
                t.referencing_foreign_keys ++ [fk] })
          .ok (fk, referencing',
            { st with latest_schema := schema, global_names := names })

/-- Column creation loop of `SchemaUpdaterImpl::CreateTable`. -/
def addTableColumns : List Ddl.ColumnDefinition → Table → ImplState →
    Except Err (Table × ImplState)
  | [], builder, st => .ok (builder, st)
  | d :: rest, builder, st =>
    match CreateColumn st d with
    | .error e => .error e
    | .ok (c, st) => addTableColumns rest (builder.add_column c) st

/-- Constraint dispatch loop of `SchemaUpdaterImpl::CreateTable`. -/
def applyCreateTableConstraints : List Ddl.Constraint → Table → ImplState →
    Except Err (Table × ImplState)
  | [], builder, st => .ok (builder, st)
  | .primaryKey pk :: rest, builder, st =>
    match CreatePrimaryKeyConstraint pk.key_part builder with
    | .error e => .error e
    | .ok builder => applyCreateTableConstraints rest builder st
  | .interleave ic :: rest, builder, st =>
    match CreateInterleaveConstraint st ic builder with
    | .error e => .error e
    | .ok (builder, st) => applyCreateTableConstraints rest builder st
  | .foreignKey fk :: rest, builder, st =>
    match CreateForeignKeyConstraint st fk builder with
    | .error e => .error e
    | .ok (_, builder, st) => applyCreateTableConstraints rest builder st
  | .unsupported :: _, _, _ => .error (.Internal "unsupported constraint type")

/-- Models `SchemaUpdaterImpl::CreateTable`: the table limit is enforced
first, then the global name is registered, columns are created, the
declared constraints are applied in order and the finished table is added
to the snapshot. -/
def CreateTable (st : ImplState) (ddl_table : Ddl.CreateTable) :
    Except Err ImplState :=
  if st.maxTables ≤ st.latest_schema.tables.length then
    .error (.TooManyTablesPerDatabase ddl_table.table_name st.maxTables)
  else
    match st.global_names.AddName "Table" ddl_table.table_name with
    | .error e => .error e
    | .ok names =>
      let st := { st with global_names := names }
      let builder : Table :=
        { id := st.next_table_id, name := ddl_table.table_name }
      let st := { st with next_table_id := st.next_table_id + 1 }
      match addTableColumns ddl_table.columns builder st with
      | .error e => .error e
      | .ok (builder, st) =>
        match applyCreateTableConstraints ddl_table.constraints builder st with
        | .error e => .error e
        | .ok (builder, st) =>
          .ok { st with latest_schema :=
            { st.latest_schema with
              tables := st.latest_schema.tables ++ [builder] } }

end SchemaUpdaterImpl

namespace SchemaUpdaterImpl

/-- Name prefix of index data tables.  Modelled from the spec: the constant
`kIndexDataTablePrefix` is not part of the given source; the data table is
named prefix + index name. -/
def indexDataTablePfx : String := "_index_data_"

/-- Owner index name of an index data table, as read through
`index_data_table->owner_index()->Name()`; the caller guarantees that the
owner index is set. -/
def ownerIndexNameOf (index_data_table : Table) : String :=
  match index_data_table.owner_index with
  | some n => n
  | none => ""

/-- Models `SchemaUpdaterImpl::CreateIndexDataTableColumn`: the source
column is resolved on the indexed table by (case-insensitive) `FindColumn`
and cloned into a fresh column of the index data table with
`source_column` set; a null-filtered key column is forced non-nullable,
any other clone inherits the nullability of its source. -/
def CreateIndexDataTableColumn (st : ImplState) (indexed_table : Table)
    (source_column_name : String) (index_data_table : Table)
    (null_filtered_key_column : Bool) :
    Except Err (Column × ImplState) :=
  match indexed_table.FindColumn source_column_name with
  | none =>
    .error (.IndexRefsNonExistentColumn (ownerIndexNameOf index_data_table)
      source_column_name)
  | some source_column =>
    let c : Column :=
      { id := st.next_column_id,
        name := source_column.name,
        source_column := some source_column.id,
        nullable :=
          if null_filtered_key_column then false
          else source_column.nullable }
    .ok (c, { st with next_column_id := st.next_column_id + 1 })

/-- First loop of the primary-key case of
`SchemaUpdaterImpl::CreateIndexDataTable`: a clone of each declared index
key column is appended to the data table builder. -/
def addIndexKeyColumns (indexed_table : Table) (null_filtered : Bool) :
    List Ddl.KeyPart → Table → ImplState → Except Err (Table × ImplState)
  | [], builder, st => .ok (builder, st)
  | p :: rest, builder, st =>
    match CreateIndexDataTableColumn st indexed_table p.key_column_name
        builder null_filtered with
    | .error e => .error e
    | .ok (c, st) =>
      addIndexKeyColumns indexed_table null_filtered rest
        (builder.add_column c) st

/-- Second loop of the primary-key case of
`SchemaUpdaterImpl::CreateIndexDataTable`: each primary-key column of the
indexed table whose name is not yet among the data table columns is cloned
and a key part carrying its descending flag is appended to the primary-key
specification. -/
def addTablePKColumns (indexed_table : Table) (null_filtered : Bool) :
    List KeyColumn → Table → List Ddl.KeyPart → ImplState →
    Except Err (Table × List Ddl.KeyPart × ImplState)
  | [], builder, acc, st => .ok (builder, acc, st)
  | key_col :: rest, builder, acc, st =>
    if (builder.FindColumn key_col.column.name).isSome then
      addTablePKColumns indexed_table null_filtered rest builder acc st
    else
      match CreateIndexDataTableColumn st indexed_table key_col.column.name
          builder null_filtered with
      | .error e => .error e
      | .ok (c, st) =>
        addTablePKColumns indexed_table null_filtered rest
          (builder.add_column c)
          (acc ++ [{ key_column_name := key_col.column.name,
                     desc := key_col.descending }]) st

/-- Constraint dispatch loop of
`SchemaUpdaterImpl::CreateIndexDataTable`: the primary-key case builds the
data table columns and the combined primary key and records the prefix of
declared length as the index key columns; the interleave case forces the
on-delete action to CASCADE; everything else trips a `RET_CHECK`. -/
def processIndexConstraints (index : Index) (indexed_table : Table) :
    List Ddl.Constraint → Table → List KeyColumn → ImplState →
    Except Err (Table × List KeyColumn × ImplState)
  | [], builder, index_key_columns, st => .ok (builder, index_key_columns, st)
  | .primaryKey ddl_primary_key :: rest, builder, index_key_columns, st =>
    match addIndexKeyColumns indexed_table index.null_filtered
        ddl_primary_key.key_part builder st with
    | .error e => .error e
    | .ok (builder, st) =>
      match addTablePKColumns indexed_table index.null_filtered
          indexed_table.primary_key builder [] st with
      | .error e => .error e
      | .ok (builder, appended, st) =>
        let data_table_pk := ddl_primary_key.key_part ++ appended
        match CreatePrimaryKeyConstraint data_table_pk builder with
        | .error e => .error e
        | .ok builder =>
          let num_declared_keys := ddl_primary_key.key_part.length
          processIndexConstraints index indexed_table rest builder
            (index_key_columns ++ builder.primary_key.take num_declared_keys)
            st
  | .interleave ic :: rest, builder, index_key_columns, st =>
    let ic := { ic with on_delete_cascade := true }
    match CreateInterleaveConstraint st ic builder with
    | .error e => .error e
    | .ok (builder, st) =>
      processIndexConstraints index indexed_table rest builder
        index_key_columns st
  | .foreignKey _ :: _, _, _, _ =>
    .error (.Internal "unsupported constraint type")
  | .unsupported :: _, _, _, _ =>
    .error (.Internal "unsupported constraint type")

/-- Stored-column loop of `SchemaUpdaterImpl::CreateIndexDataTable`: each
stored column definition must carry a `stored` property naming itself
(`RET_CHECK`), and is cloned (never null-filtered) onto the data table. -/
def addStoredColumns (indexed_table : Table) :
    List Ddl.ColumnDefinition → Table → List Column → ImplState →
    Except Err (Table × List Column × ImplState)
  | [], builder, stored_columns, st => .ok (builder, stored_columns, st)
  | d :: rest, builder, stored_columns, st =>
    let okSpec : Bool :=
      match d.properties with
      | some props =>
        match props.stored with
        | some s => s == d.column_name
        | none => false
      | none => false
    if okSpec then
      match CreateIndexDataTableColumn st indexed_table d.column_name
          builder false with
      | .error e => .error e
      | .ok (c, st) =>
        addStoredColumns indexed_table rest (builder.add_column c)
          (stored_columns ++ [c]) st
    else
      .error (.Internal "invalid stored column specification for index")

/-- Models `SchemaUpdaterImpl::CreateIndexDataTable`: allocates the data
table builder (owned by the index), processes the declared constraints and
the stored columns, and returns the finished data table together with the
index key columns and stored columns collected along the way. -/
def CreateIndexDataTable (st : ImplState) (ddl_index : Ddl.CreateIndex)
    (index : Index) (indexed_table : Table) :
    Except Err (Table × List KeyColumn × List Column × ImplState) :=
  let table_name := indexDataTablePfx ++ ddl_index.index_name
  let builder : Table :=
    { id := st.next_table_id, name := table_name,
      owner_index := some index.name }
  let st := { st with next_table_id := st.next_table_id + 1 }
  match processIndexConstraints index indexed_table ddl_index.constraints
      builder [] st with
  | .error e => .error e
  | .ok (builder, index_key_columns, st) =>
    match addStoredColumns indexed_table ddl_index.columns builder [] st with
    | .error e => .error e
    | .ok (builder, stored_columns, st) =>
      .ok (builder, index_key_columns, stored_columns, st)

/-- Models `SchemaUpdaterImpl::CreateIndex`: resolves the indexed table
(case-insensitively), enforces the index limit, registers the index name in
the shared namespace, builds the data table, links the index into the
snapshot and queues the backfill action. -/
def CreateIndex (st : ImplState) (ddl_index : Ddl.CreateIndex) :
    Except Err ImplState :=
  match st.latest_schema.FindTable ddl_index.table_name with
  | none => .error (.TableNotFound ddl_index.table_name)
  | some indexed_table =>
    if st.maxIndexes ≤ st.latest_schema.num_index then
      .error (.TooManyIndicesPerDatabase ddl_index.index_name st.maxIndexes)
    else
      match st.global_names.AddName "Index" ddl_index.index_name with
      | .error e => .error e
      | .ok names =>
        let st := { st with global_names := names }
        let index0 : Index :=
          { name := ddl_index.index_name,
            is_unique := ddl_index.properties.is_unique,
            null_filtered := ddl_index.properties.null_filtered }
        match CreateIndexDataTable st ddl_index index0 indexed_table with
        | .error e => .error e
        | .ok (data_table, key_columns, stored_columns, st) =>
          let index : Index :=
            { index0 with
              index_data_table := some data_table,
              key_columns := key_columns,
              stored_columns := stored_columns,
              indexed_table_name := indexed_table.name }
          let schema := st.latest_schema.updateTable indexed_table.id
            (fun t => { t with indexes := t.indexes ++ [index.name] })
          .ok { st with
            latest_schema :=
              { schema with indexes := schema.indexes ++ [index] },
            pending := st.pending ++ [.backfillIndex index.name] }

end SchemaUpdaterImpl

namespace SchemaUpdaterImpl

/-- Models `SchemaUpdaterImpl::AlterInterleave`: rewrites the on-delete
action of the table. -/
def AlterInterleave (st : ImplState)
    (ddl_interleave : Ddl.InterleaveConstraint) (table : Table) :
    ImplState :=
  let schema := st.latest_schema.updateTable table.id
    (fun t => { t with on_delete_cascade := ddl_interleave.on_delete_cascade })
  { st with latest_schema := schema }

/-- Models `SchemaUpdaterImpl::AddForeignKey`: creates the foreign key for
an existing table and installs the updated table in the snapshot. -/
def AddForeignKey (st : ImplState)
    (ddl_foreign_key : Ddl.ForeignKeyConstraint) (table : Table) :
    Except Err ImplState :=
  match CreateForeignKeyConstraint st ddl_foreign_key table with
  | .error e => .error e
  | .ok (_, table', st) =>
    .ok { st with latest_schema :=
      st.latest_schema.updateTable table.id (fun _ => table') }

/-- Models `SchemaUpdaterImpl::DropConstraint`: only foreign keys are
droppable; a name that resolves to none of them is `ConstraintNotFound`. -/
def DropConstraint (st : ImplState) (constraint_name : String)
    (table : Table) : Except Err ImplState :=
  match table.FindForeignKey constraint_name with
  | some fk =>
    let schema := st.latest_schema.updateTable table.id
      (fun t =>
        { t with foreign_keys := t.foreign_keys.filter (fun f => !(f == fk)) })
    .ok { st with latest_schema := schema }
  | none => .error (.ConstraintNotFound constraint_name table.name)

/-- Constraint branch of `SchemaUpdaterImpl::AlterTable`: an interleave
constraint with ALTER, a foreign key with ADD, or a bare constraint name
with DROP; every other combination is an internal error. -/
def handleAlterConstraint (st : ImplState)
    (alter_constraint : Ddl.AlterConstraint) (table : Table) :
    Except Err ImplState :=
  match alter_constraint.constraint, alter_constraint.constraint_name,
      alter_constraint.type with
  | some (.interleave ic), _, .alter => .ok (AlterInterleave st ic table)
  | some (.foreignKey fk), _, .add => AddForeignKey st fk table
  | none, some constraint_name, .drop =>
    DropConstraint st constraint_name table
  | _, _, _ =>
    .error (.Internal "invalid alter table constraint operation")

/-- Column branch of `SchemaUpdaterImpl::AlterTable`: ADD creates a fresh
column and attaches it; ALTER re-runs `SetColumnDefinition` on the resolved
column; DROP deletes the resolved column; the column is resolved with the
case-insensitive `FindColumn` and a miss is `ColumnNotFound`. -/
def handleAlterColumn (st : ImplState) (alter_column : Ddl.AlterColumn)
    (table : Table) : Except Err ImplState :=
  match alter_column.type with
  | .add =>
    match CreateColumn st alter_column.column with
    | .error e => .error e
    | .ok (new_column, st) =>
      let schema := st.latest_schema.updateTable table.id
        (fun t => t.add_column new_column)
      .ok { st with latest_schema := schema }
  | .alter =>
    match table.FindColumn alter_column.column_name with
    | none => .error (.ColumnNotFound table.name alter_column.column_name)
    | some column =>
      match SetColumnDefinition alter_column.column column with
      | .error e => .error e
      | .ok column' =>
        let schema := st.latest_schema.updateTable table.id
          (fun t =>
            let cols := t.columns.map
              (fun c => if c.id = column.id then column' else c)
            { t with columns := cols })
        .ok { st with latest_schema := schema }
  | .drop =>
    match table.FindColumn alter_column.column_name with
    | none => .error (.ColumnNotFound table.name alter_column.column_name)
    | some column =>
      let schema := st.latest_schema.updateTable table.id
        (fun t =>
          let cols := t.columns.filter (fun c => !(c == column))
          { t with columns := cols })
      .ok { st with latest_schema := schema }
  | .otherType => .error (.Internal "invalid alter column specification")

/-- Models `SchemaUpdaterImpl::AlterTable`: resolves the table, checks via
`RET_CHECK` that an alter_column or an alter_constraint is present, and
dispatches — the alter_constraint branch is examined first. -/
def AlterTable (st : ImplState) (alter_table : Ddl.AlterTable) :
    Except Err ImplState :=
  match st.latest_schema.FindTable alter_table.table_name with
  | none => .error (.TableNotFound alter_table.table_name)
  | some table =>
    if alter_table.alter_column.isNone &&
        alter_table.alter_constraint.isNone then
      .error (.Internal "alter_table has neither alter_column nor alter_constraint")
    else
      match alter_table.alter_constraint with
      | some ac => handleAlterConstraint st ac table
      | none =>
        match alter_table.alter_column with
        | some acol => handleAlterColumn st acol table
        | none => .ok st

/-- Models `SchemaUpdaterImpl::DropTable`: resolves the table
case-insensitively and deletes its node.  Dangling references are
diagnosed at canonicalization by the graph editor, which is outside the
given source. -/
def DropTable (st : ImplState) (drop_table : Ddl.DropTable) :
    Except Err ImplState :=
  match st.latest_schema.FindTable drop_table.table_name with
  | none => .error (.TableNotFound drop_table.table_name)
  | some table =>
    .ok { st with latest_schema := { st.latest_schema with
      tables := st.latest_schema.tables.filter (fun t => !(t == table)) } }

/-- Models `SchemaUpdaterImpl::DropIndex`: resolves the index and deletes
it together with its owned data table (the data table lives inside the
`Index` record of the model). -/
def DropIndex (st : ImplState) (drop_index : Ddl.DropIndex) :
    Except Err ImplState :=
  match st.latest_schema.FindIndex drop_index.index_name with
  | none => .error (.IndexNotFound drop_index.index_name)
  | some index =>
    .ok { st with latest_schema := { st.latest_schema with
      indexes := st.latest_schema.indexes.filter (fun i => !(i == index)) } }

/-- Models `SchemaUpdaterImpl::ApplyDDLStatement`: dispatch on the parsed
statement kind.  The emptiness check and the parse step concern the raw
statement text; statements enter the model already parsed. -/
def ApplyDDLStatement (st : ImplState) (stmt : Ddl.DDLStatement) :
    Except Err ImplState :=
  match stmt with
  | .createTable ct => CreateTable st ct
  | .createIndex ci => CreateIndex st ci
  | .alterTable a => AlterTable st a
  | .dropTable d => DropTable st d
  | .dropIndex d => DropIndex st d

/-- Per-statement result recorded by
`SchemaUpdaterImpl::ApplyDDLStatements`: the schema snapshot after the
statement together with the deferred actions its validation context
collected (the model of one `SchemaValidationContext`). -/
structure StatementWork where
  snapshot : Schema
  actions : List SchemaAction
deriving DecidableEq

/-- Models `SchemaUpdaterImpl::ApplyDDLStatements`: statements are applied
in order against the chained snapshots; the first structural error aborts
the batch; on success the per-statement work records are returned. -/
def ApplyDDLStatements (st : ImplState) :
    List Ddl.DDLStatement → Except Err (List StatementWork × ImplState)
  | [] => .ok ([], st)
  | stmt :: rest =>
    match ApplyDDLStatement { st with pending := [] } stmt with
    | .error e => .error e
    | .ok st' =>
      match ApplyDDLStatements st' rest with
      | .error e => .error e
      | .ok (work, stFinal) =>
        .ok ({ snapshot := st'.latest_schema,
               actions := st'.pending } :: work, stFinal)

end SchemaUpdaterImpl

namespace SchemaUpdater

/-- Process-wide empty schema (`SchemaUpdater::EmptySchema`). -/
def EmptySchema : Schema := {}

/-- Entries fed to the name registry by `SchemaUpdaterImpl::Init`: every
node of the existing snapshot whose `GetSchemaNameInfo` is global.
Modelled from the spec (sections 4.1 and 4.3): tables and indexes are
global, and of the foreign keys exactly the user-named ones. -/
def globalNameEntries (s : Schema) : List (String × String) :=
  s.tables.map (fun t => ("Table", t.name))
    ++ s.indexes.map (fun i => ("Index", i.name))
    ++ s.tables.foldr
      (fun t acc =>
        t.foreign_keys.filterMap
          (fun fk => fk.constraint_name.map (fun n => ("Foreign Key", n)))
        ++ acc) []

/-- Registration loop of `SchemaUpdaterImpl::Init`. -/
def addAllNames : List (String × String) → GlobalNames →
    Except Err GlobalNames
  | [], names => .ok names
  | (k, n) :: rest, names =>
    match names.AddName k n with
    | .error e => .error e
    | .ok names => addAllNames rest names

/-- Models `SchemaUpdaterImpl::Build` followed by `Init`: the updater
state over the existing snapshot with the name registry seeded from it. -/
def Build (existing_schema : Schema) (maxTables maxIndexes : Nat) :
    Except Err ImplState :=
  match addAllNames (globalNameEntries existing_schema) [] with
  | .error e => .error e
  | .ok names =>
    .ok { latest_schema := existing_schema, global_names := names,
          maxTables := maxTables, maxIndexes := maxIndexes }

/-- Result record of `SchemaUpdater::UpdateSchemaFromDDL`
(`SchemaChangeResult` in the source); `backfill_status = none` models an
OK status. -/
structure SchemaChangeResult where
  num_successful_statements : Nat
  updated_schema : Option Schema
  backfill_status : Option Err
deriving DecidableEq

/-- Models `SchemaValidationContext::RunSchemaChangeActions` for one
statement.  Modelled from the spec (section 4.7): the queued actions run
in order and the first failing action aborts the run; the outcome of
executing one action against storage is supplied by the `runAction`
oracle, because action execution is data-dependent and external. -/
def RunSchemaChangeActions (runAction : SchemaAction → Option Err) :
    List SchemaAction → Option Err
  | [] => none
  | a :: rest =>
    match runAction a with
    | some e => some e
    | none => RunSchemaChangeActions runAction rest

/-- Models `SchemaUpdater::RunPendingActions`: the statements run in
order; a statement whose actions fail stops the loop, and the counter
reports how many statements ran all their actions successfully. -/
def RunPendingActions (runAction : SchemaAction → Option Err) :
    List SchemaUpdaterImpl.StatementWork → Nat × Option Err
  | [] => (0, none)
  | w :: rest =>
    match RunSchemaChangeActions runAction w.actions with
    | some e => (0, some e)
    | none =>
      let (n, s) := RunPendingActions runAction rest
      (n + 1, s)

/-- Null-handling of the existing snapshot argument of
`SchemaUpdater::ValidateSchemaFromDDL`: a null schema means the empty
schema. -/
def existingOrEmpty (existing_schema : Option Schema) : Schema :=
  match existing_schema with
  | none => EmptySchema
  | some s => s

/-- Models `SchemaUpdater::ValidateSchemaFromDDL`: all statements are
applied structurally; deferred actions never run; the returned schema is
the last intermediate snapshot, or null when there is none. -/
def ValidateSchemaFromDDL (statements : List Ddl.DDLStatement)
    (existing_schema : Option Schema) (maxTables maxIndexes : Nat) :
    Except Err (Option Schema) :=
  match Build (existingOrEmpty existing_schema) maxTables maxIndexes with
  | .error e => .error e
  | .ok st =>
    match SchemaUpdaterImpl.ApplyDDLStatements st statements with
    | .error e => .error e
    | .ok (work, _) => .ok ((work.map (·.snapshot)).getLast?)

/-- Assembly of the `SchemaChangeResult` at the end of
`SchemaUpdater::UpdateSchemaFromDDL`, including the final `RET_CHECK` that
the success count does not exceed the number of intermediate snapshots. -/
def finishUpdate (work : List SchemaUpdaterImpl.StatementWork)
    (num_successful : Nat) (backfill_status : Option Err) :
    Except Err SchemaChangeResult :=
  if num_successful ≤ work.length then
    .ok { num_successful_statements := num_successful,
          updated_schema :=
            if 0 < num_successful then
              (work.map (fun w => w.snapshot))[num_successful - 1]?
            else none,
          backfill_status := backfill_status }
  else .error (.Internal "more successes than intermediate schemas")

/-- Models `SchemaUpdater::UpdateSchemaFromDDL`: structural application of
the whole batch, then the deferred actions; the result carries the number
of fully successful statements, the snapshot after the last of them (null
when none succeeded) and the status of the action run; a success count
beyond the number of snapshots would trip the final `RET_CHECK`. -/
def UpdateSchemaFromDDL (runAction : SchemaAction → Option Err)
    (existing_schema : Schema) (statements : List Ddl.DDLStatement)
    (maxTables maxIndexes : Nat) : Except Err SchemaChangeResult :=
  match Build existing_schema maxTables maxIndexes with
  | .error e => .error e
  | .ok st =>
    match SchemaUpdaterImpl.ApplyDDLStatements st statements with
    | .error e => .error e
    | .ok (work, _) =>
      finishUpdate work (RunPendingActions runAction work).1
        (RunPendingActions runAction work).2

/-- Models `SchemaUpdater::CreateSchemaFromDDL`: update over the empty
schema, failing outright when any deferred action failed. -/
def CreateSchemaFromDDL (runAction : SchemaAction → Option Err)
    (statements : List Ddl.DDLStatement) (maxTables maxIndexes : Nat) :
    Except Err (Option Schema) :=
  match UpdateSchemaFromDDL runAction EmptySchema statements
      maxTables maxIndexes with
  | .error e => .error e
  | .ok result =>
    match result.backfill_status with
    | some e => .error e
    | none => .ok result.updated_schema

end SchemaUpdater

/-- Convenience: a CREATE TABLE statement with the given name and no
columns or constraints. -/
def simpleCreateTable (n : String) : Ddl.DDLStatement :=
  .createTable { table_name := n }

/-- Specification-side predicate: all deferred actions of one statement
succeed under the action oracle. -/
def statementActionsOk (runAction : SchemaAction → Option Err)
    (w : SchemaUpdaterImpl.StatementWork) : Bool :=
  w.actions.all (fun a => (runAction a).isNone)

/-- Specification-side count of successful statements: the length of the
longest prefix of the batch all of whose deferred actions succeed. -/
def successPrefixLength (runAction : SchemaAction → Option Err)
    (work : List SchemaUpdaterImpl.StatementWork) : Nat :=
  (work.takeWhile (statementActionsOk runAction)).length

/-- Specification-side first deferred-action failure of the batch, taking
statements and their actions in order. -/
def firstActionFailure (runAction : SchemaAction → Option Err)
    (work : List SchemaUpdaterImpl.StatementWork) : Option Err :=
  ((work.map (fun w => w.actions)).flatten.filterMap runAction).head?

-- ===================== Theorems =====================

theorem findColumn_ciEq {t : Table} {n : String} {c : Column}
    (h : t.FindColumn n = some c) : ciEq c.name n = true := by
  unfold Table.FindColumn at h
  simpa using List.find?_some h

theorem findColumn_mem {t : Table} {n : String} {c : Column}
    (h : t.FindColumn n = some c) : c ∈ t.columns := by
  unfold Table.FindColumn at h
  exact List.mem_of_find?_eq_some h

theorem findColumnCaseSensitive_name {t : Table} {n : String} {c : Column}
    (h : t.FindColumnCaseSensitive n = some c) : c.name = n := by
  unfold Table.FindColumnCaseSensitive at h
  cases hf : t.FindColumn n with
  | none => rw [hf] at h; exact absurd h (by simp)
  | some c' =>
    rw [hf] at h
    by_cases hn : c'.name = n
    · simp only [hn, if_pos rfl] at h
      cases h; exact hn
    · simp [hn] at h

theorem findTableCaseSensitive_name {s : Schema} {n : String} {t : Table}
    (h : s.FindTableCaseSensitive n = some t) : t.name = n := by
  unfold Schema.FindTableCaseSensitive at h
  cases hf : s.FindTable n with
  | none => rw [hf] at h; exact absurd h (by simp)
  | some t' =>
    rw [hf] at h
    by_cases hn : t'.name = n
    · simp only [hn, if_pos rfl] at h
      cases h; exact hn
    · simp [hn] at h

/-- C6: when the parent table of an interleave constraint does not resolve
case-insensitively in the latest snapshot, the statement fails with
`TableNotFound` for an ordinary table and with
`IndexInterleaveTableNotFound` (naming the owning index and the parent)
for an index data table; nothing else is returned for a missing parent. -/
theorem createInterleaveConstraint_missing_parent
    (st : ImplState) (interleave : Ddl.InterleaveConstraint)
    (builder : Table)
    (hmiss : st.latest_schema.FindTable interleave.parent = none) :
    SchemaUpdaterImpl.CreateInterleaveConstraint st interleave builder =
      (match builder.owner_index with
       | none => .error (.TableNotFound interleave.parent)
       | some owner_name =>
         .error (.IndexInterleaveTableNotFound owner_name
           interleave.parent)) := by
  unfold SchemaUpdaterImpl.CreateInterleaveConstraint
  rw [hmiss]

theorem createInterleaveConstraint_missing_parent_witness :
    ({} : Schema).FindTable "P" = none ∧
    SchemaUpdaterImpl.CreateInterleaveConstraint { latest_schema := {} }
      { parent := "P" } { name := "T" } = .error (.TableNotFound "P") ∧
    SchemaUpdaterImpl.CreateInterleaveConstraint { latest_schema := {} }
      { parent := "P" } { name := "D", owner_index := some "Idx" } =
      .error (.IndexInterleaveTableNotFound "Idx" "P") :=
  ⟨rfl,
   createInterleaveConstraint_missing_parent { latest_schema := {} }
     { parent := "P" } { name := "T" } rfl,
   createInterleaveConstraint_missing_parent { latest_schema := {} }
     { parent := "P" } { name := "D", owner_index := some "Idx" } rfl⟩

/-- C8: a primary-key part is resolved by case-sensitive lookup among the
columns accumulated so far in the builder; a resolved part yields a
`KeyColumn` with the referenced column and the declared descending flag,
which is attached to the builder, and the resolved column bears exactly
the declared name; a missing part fails with `NonExistentKeyColumn`. -/
theorem createPrimaryKeyColumn_resolution :
    (∀ (table : Table) (p : Ddl.KeyPart),
      table.FindColumnCaseSensitive p.key_column_name = none →
      SchemaUpdaterImpl.CreatePrimaryKeyColumn table p =
        .error (.NonExistentKeyColumn
          (SchemaUpdaterImpl.owningObjectType table)
          (SchemaUpdaterImpl.owningObjectName table) p.key_column_name)) ∧
    (∀ (table : Table) (p : Ddl.KeyPart) (c : Column),
      table.FindColumnCaseSensitive p.key_column_name = some c →
      SchemaUpdaterImpl.CreatePrimaryKeyColumn table p =
          .ok { column := c, descending := p.desc } ∧
        c.name = p.key_column_name) ∧
    (∀ (table : Table) (p : Ddl.KeyPart) (rest : List Ddl.KeyPart)
        (c : Column),
      table.FindColumnCaseSensitive p.key_column_name = some c →
      SchemaUpdaterImpl.CreatePrimaryKeyConstraint (p :: rest) table =
        SchemaUpdaterImpl.CreatePrimaryKeyConstraint rest
          (table.add_key_column { column := c, descending := p.desc })) := by
  refine ⟨?_, ?_, ?_⟩
  · intro table p h
    unfold SchemaUpdaterImpl.CreatePrimaryKeyColumn
    rw [h]
  · intro table p c h
    refine ⟨?_, findColumnCaseSensitive_name h⟩
    unfold SchemaUpdaterImpl.CreatePrimaryKeyColumn
    rw [h]
  · intro table p rest c h
    have hcol : SchemaUpdaterImpl.CreatePrimaryKeyColumn table p =
        .ok { column := c, descending := p.desc } := by
      unfold SchemaUpdaterImpl.CreatePrimaryKeyColumn
      rw [h]
    simp only [SchemaUpdaterImpl.CreatePrimaryKeyConstraint, hcol]

theorem createPrimaryKeyColumn_resolution_witness :
    (({ columns := [{ id := 7, name := "K" }] } : Table).FindColumnCaseSensitive
        "k" = none ∧
      SchemaUpdaterImpl.CreatePrimaryKeyColumn
        { columns := [{ id := 7, name := "K" }] } { key_column_name := "k" } =
        .error (.NonExistentKeyColumn "Table" "" "k")) ∧
    (({ columns := [{ id := 7, name := "K" }] } : Table).FindColumnCaseSensitive
        "K" = some { id := 7, name := "K" } ∧
      SchemaUpdaterImpl.CreatePrimaryKeyColumn
        { columns := [{ id := 7, name := "K" }] }
        { key_column_name := "K", desc := true } =
        .ok { column := { id := 7, name := "K" }, descending := true }) ∧
    SchemaUpdaterImpl.CreatePrimaryKeyConstraint
        [{ key_column_name := "K", desc := true }]
        { columns := [{ id := 7, name := "K" }] } =
      SchemaUpdaterImpl.CreatePrimaryKeyConstraint []
        (Table.add_key_column { columns := [{ id := 7, name := "K" }] }
          { column := { id := 7, name := "K" }, descending := true }) :=
  ⟨⟨by decide,
    createPrimaryKeyColumn_resolution.1
      { columns := [{ id := 7, name := "K" }] } { key_column_name := "k" }
      (by decide)⟩,
   ⟨by decide,
    (createPrimaryKeyColumn_resolution.2.1
      { columns := [{ id := 7, name := "K" }] }
      { key_column_name := "K", desc := true } { id := 7, name := "K" }
      (by decide)).1⟩,
   createPrimaryKeyColumn_resolution.2.2
     { columns := [{ id := 7, name := "K" }] }
     { key_column_name := "K", desc := true } [] { id := 7, name := "K" }
     (by decide)⟩

/-- C5: the referenced table of a foreign key is resolved by
case-sensitive lookup in the latest snapshot; on a miss, a referenced name
equal to the referencing table name yields a self-referencing foreign key
(referenced table = referencing table) and any other name fails the
statement with `TableNotFound` naming the referenced table. -/
theorem foreignKey_referenced_table_resolution :
    (∀ (s : Schema) (n : String) (referencing t : Table),
      s.FindTableCaseSensitive n = some t →
      SchemaUpdaterImpl.resolveReferencedTable s n referencing = .ok t) ∧
    (∀ (s : Schema) (n : String) (referencing : Table),
      s.FindTableCaseSensitive n = none → n ≠ referencing.name →
      SchemaUpdaterImpl.resolveReferencedTable s n referencing =
        .error (.TableNotFound n)) ∧
    (∀ (s : Schema) (n : String) (referencing : Table),
      s.FindTableCaseSensitive n = none → n = referencing.name →
      SchemaUpdaterImpl.resolveReferencedTable s n referencing =
        .ok referencing) ∧
    (∀ (st : ImplState) (ddl_fk : Ddl.ForeignKeyConstraint)
        (referencing : Table),
      st.latest_schema.FindTableCaseSensitive
        ddl_fk.referenced_table_name = none →
      ddl_fk.referenced_table_name ≠ referencing.name →
      SchemaUpdaterImpl.CreateForeignKeyConstraint st ddl_fk referencing =
        .error (.TableNotFound ddl_fk.referenced_table_name)) := by
  refine ⟨?_, ?_, ?_, ?_⟩
  · intro s n referencing t h
    unfold SchemaUpdaterImpl.resolveReferencedTable
    rw [h]
  · intro s n referencing h hne
    unfold SchemaUpdaterImpl.resolveReferencedTable
    rw [h]
    simp [hne]
  · intro s n referencing h heq
    unfold SchemaUpdaterImpl.resolveReferencedTable
    rw [h]
    simp [heq]
  · intro st ddl_fk referencing h hne
    have hres : SchemaUpdaterImpl.resolveReferencedTable st.latest_schema
        ddl_fk.referenced_table_name referencing =
        .error (.TableNotFound ddl_fk.referenced_table_name) := by
      unfold SchemaUpdaterImpl.resolveReferencedTable
      rw [h]
      simp [hne]
    unfold SchemaUpdaterImpl.CreateForeignKeyConstraint
    rw [hres]

theorem foreignKey_referenced_table_resolution_witness :
    (({ tables := [{ id := 0, name := "A" }] } : Schema).FindTableCaseSensitive
        "A" = some { id := 0, name := "A" } ∧
      SchemaUpdaterImpl.resolveReferencedTable
        { tables := [{ id := 0, name := "A" }] } "A" { name := "B" } =
        .ok { id := 0, name := "A" }) ∧
    (SchemaUpdaterImpl.resolveReferencedTable {} "Ghost" { name := "B" } =
      .error (.TableNotFound "Ghost")) ∧
    (SchemaUpdaterImpl.resolveReferencedTable {} "B" { name := "B" } =
      .ok { name := "B" }) ∧
    SchemaUpdaterImpl.CreateForeignKeyConstraint { latest_schema := {} }
        { referenced_table_name := "Ghost" } { name := "B" } =
      .error (.TableNotFound "Ghost") :=
  ⟨⟨by decide,
    foreignKey_referenced_table_resolution.1
      { tables := [{ id := 0, name := "A" }] } "A" { name := "B" }
      { id := 0, name := "A" } (by decide)⟩,
   foreignKey_referenced_table_resolution.2.1 {} "Ghost" { name := "B" }
     (by decide) (by decide),
   foreignKey_referenced_table_resolution.2.2.1 {} "B" { name := "B" }
     (by decide) rfl,
   foreignKey_referenced_table_resolution.2.2.2 { latest_schema := {} }
     { referenced_table_name := "Ghost" } { name := "B" } (by decide)
     (by decide)⟩

theorem applyColConstraints_act :
    ∀ (cs : List Ddl.ColConstraint) (c out : Column),
    SchemaUpdaterImpl.applyColConstraints cs c = .ok out →
    out.allow_commit_timestamp = c.allow_commit_timestamp := by
  intro cs
  induction cs with
  | nil =>
    intro c out h
    unfold SchemaUpdaterImpl.applyColConstraints at h
    cases h; rfl
  | cons k rest ih =>
    intro c out h
    cases k with
    | notNull b =>
      unfold SchemaUpdaterImpl.applyColConstraints at h
      have h2 := ih _ _ h
      simpa using h2
    | columnLength n =>
      unfold SchemaUpdaterImpl.applyColConstraints at h
      have h2 := ih _ _ h
      simpa using h2
    | otherKind =>
      unfold SchemaUpdaterImpl.applyColConstraints at h
      exact absurd h (by simp)

theorem applyColConstraints_determined :
    ∀ (cs : List Ddl.ColConstraint) (c₁ c₂ out₁ : Column),
    SchemaUpdaterImpl.applyColConstraints cs c₁ = .ok out₁ →
    c₁.nullable = c₂.nullable →
    c₁.declared_max_length = c₂.declared_max_length →
    ∃ out₂, SchemaUpdaterImpl.applyColConstraints cs c₂ = .ok out₂ ∧
      out₂.nullable = out₁.nullable ∧
      out₂.declared_max_length = out₁.declared_max_length := by
  intro cs
  induction cs with
  | nil =>
    intro c₁ c₂ out₁ h hn hl
    unfold SchemaUpdaterImpl.applyColConstraints at h ⊢
    cases h
    exact ⟨c₂, rfl, hn.symm, hl.symm⟩
  | cons k rest ih =>
    intro c₁ c₂ out₁ h hn hl
    cases k with
    | notNull b =>
      unfold SchemaUpdaterImpl.applyColConstraints at h ⊢
      exact ih _ _ _ h rfl hl
    | columnLength n =>
      unfold SchemaUpdaterImpl.applyColConstraints at h ⊢
      exact ih _ _ _ h hn rfl
    | otherKind =>
      unfold SchemaUpdaterImpl.applyColConstraints at h
      exact absurd h (by simp)

theorem setColumnType_frame (d : Ddl.ColumnDefinition) (c : Column) :
    (SchemaUpdaterImpl.setColumnType d c).allow_commit_timestamp =
        c.allow_commit_timestamp ∧
      (SchemaUpdaterImpl.setColumnType d c).nullable = c.nullable ∧
      (SchemaUpdaterImpl.setColumnType d c).declared_max_length =
        c.declared_max_length := by
  cases hp : d.properties with
  | none => simp [SchemaUpdaterImpl.setColumnType, hp]
  | some props =>
    cases hct : props.column_type with
    | none => simp [SchemaUpdaterImpl.setColumnType, hp, hct]
    | some t => simp [SchemaUpdaterImpl.setColumnType, hp, hct]

/-- C10: `SetColumnDefinition` unconditionally resets nullability to true
and the declared length to none before replaying the sub-constraints of
the definition, so the resulting nullability and length never depend on
the previous column state; `allow_commit_timestamp` is written exactly
when the definition carries an options clause — a definition without one
preserves the previous value. -/
theorem setColumnDefinition_frame :
    (∀ (d : Ddl.ColumnDefinition) (c out : Column),
      d.options = none →
      SchemaUpdaterImpl.SetColumnDefinition d c = .ok out →
      out.allow_commit_timestamp = c.allow_commit_timestamp) ∧
    (∀ (d : Ddl.ColumnDefinition) (c₁ c₂ out₁ : Column),
      SchemaUpdaterImpl.SetColumnDefinition d c₁ = .ok out₁ →
      ∃ out₂, SchemaUpdaterImpl.SetColumnDefinition d c₂ = .ok out₂ ∧
        out₂.nullable = out₁.nullable ∧
        out₂.declared_max_length = out₁.declared_max_length) ∧
    (∀ (d : Ddl.ColumnDefinition) (opts : List Ddl.OptionEntry)
        (c out : Column),
      d.options = some opts →
      SchemaUpdaterImpl.SetColumnDefinition d c = .ok out →
      ∃ act, SchemaUpdaterImpl.CreateColumnOptions opts none = .ok act ∧
        out.allow_commit_timestamp = act) := by
  refine ⟨?_, ?_, ?_⟩
  · intro d c out hopts h
    cases hap : SchemaUpdaterImpl.applyColConstraints d.constraints
        { SchemaUpdaterImpl.setColumnType d c with
          nullable := true, declared_max_length := none } with
    | error e =>
      simp only [SchemaUpdaterImpl.SetColumnDefinition, hap] at h
      exact absurd h (by simp)
    | ok mid =>
      simp only [SchemaUpdaterImpl.SetColumnDefinition, hap, hopts,
        Except.ok.injEq] at h
      subst h
      have h1 := applyColConstraints_act _ _ _ hap
      simpa using h1.trans (setColumnType_frame d c).1
  · intro d c₁ c₂ out₁ h
    cases hap : SchemaUpdaterImpl.applyColConstraints d.constraints
        { SchemaUpdaterImpl.setColumnType d c₁ with
          nullable := true, declared_max_length := none } with
    | error e =>
      simp only [SchemaUpdaterImpl.SetColumnDefinition, hap] at h
      exact absurd h (by simp)
    | ok mid₁ =>
      obtain ⟨mid₂, hap₂, hn, hl⟩ :=
        applyColConstraints_determined d.constraints _
          { SchemaUpdaterImpl.setColumnType d c₂ with
            nullable := true, declared_max_length := none } _ hap rfl rfl
      cases hopts : d.options with
      | none =>
        simp only [SchemaUpdaterImpl.SetColumnDefinition, hap, hopts,
          Except.ok.injEq] at h
        subst h
        refine ⟨mid₂, ?_, hn, hl⟩
        simp only [SchemaUpdaterImpl.SetColumnDefinition, hap₂, hopts]
      | some opts =>
        cases hco : SchemaUpdaterImpl.CreateColumnOptions opts none with
        | error e =>
          simp only [SchemaUpdaterImpl.SetColumnDefinition, hap, hopts,
            hco] at h
          exact absurd h (by simp)
        | ok act =>
          simp only [SchemaUpdaterImpl.SetColumnDefinition, hap, hopts,
            hco, Except.ok.injEq] at h
          subst h
          refine ⟨{ mid₂ with allow_commit_timestamp := act }, ?_, hn, hl⟩
          simp only [SchemaUpdaterImpl.SetColumnDefinition, hap₂, hopts, hco]
  · intro d opts c out hopts h
    cases hap : SchemaUpdaterImpl.applyColConstraints d.constraints
        { SchemaUpdaterImpl.setColumnType d c with
          nullable := true, declared_max_length := none } with
    | error e =>
      simp only [SchemaUpdaterImpl.SetColumnDefinition, hap] at h
      exact absurd h (by simp)
    | ok mid =>
      cases hco : SchemaUpdaterImpl.CreateColumnOptions opts none with
      | error e =>
        simp only [SchemaUpdaterImpl.SetColumnDefinition, hap, hopts,
          hco] at h
        exact absurd h (by simp)
      | ok act =>
        simp only [SchemaUpdaterImpl.SetColumnDefinition, hap, hopts,
          hco, Except.ok.injEq] at h
        subst h
        exact ⟨act, rfl, rfl⟩

theorem setColumnDefinition_frame_witness :
    (({ column_name := "C" } : Ddl.ColumnDefinition).options = none ∧
      SchemaUpdaterImpl.SetColumnDefinition { column_name := "C" }
          { id := 3, name := "C", nullable := false,
            declared_max_length := some 7,
            allow_commit_timestamp := some true } =
        .ok { id := 3, name := "C", nullable := true,
              declared_max_length := none,
              allow_commit_timestamp := some true } ∧
      (some true : Option Bool) = some true) ∧
    (∃ out₂,
      SchemaUpdaterImpl.SetColumnDefinition { column_name := "C" }
          { id := 4, name := "C", nullable := false,
            declared_max_length := some 9 } = .ok out₂ ∧
        out₂.nullable = true ∧ out₂.declared_max_length = none) ∧
    (∃ act,
      SchemaUpdaterImpl.CreateColumnOptions
          [{ name := "commit_timestamp", val := .boolValue true }] none =
        .ok act ∧
      (some true : Option Bool) = act) :=
  ⟨⟨rfl, rfl,
    setColumnDefinition_frame.1 { column_name := "C" }
      { id := 3, name := "C", nullable := false,
        declared_max_length := some 7,
        allow_commit_timestamp := some true }
      { id := 3, name := "C", nullable := true,
        declared_max_length := none,
        allow_commit_timestamp := some true } rfl rfl⟩,
   by
    have h := setColumnDefinition_frame.2.1 { column_name := "C" }
      { id := 3, name := "C", nullable := false,
        declared_max_length := some 7,
        allow_commit_timestamp := some true }
      { id := 4, name := "C", nullable := false,
        declared_max_length := some 9 }
      { id := 3, name := "C", nullable := true,
        declared_max_length := none,
        allow_commit_timestamp := some true } rfl
    simpa using h,
   setColumnDefinition_frame.2.2
     { column_name := "C",
       options := some [{ name := "commit_timestamp",
                          val := .boolValue true }] }
     [{ name := "commit_timestamp", val := .boolValue true }]
     { id := 5, name := "C" }
     { id := 5, name := "C", nullable := true,
       allow_commit_timestamp := some true } rfl rfl⟩

/-- C9: on the empty statement list `ValidateSchemaFromDDL` returns a null
schema (not the existing snapshot), and `UpdateSchemaFromDDL` returns zero
successful statements with a null updated schema and an OK backfill
status. -/
theorem emptyBatch_null_schema (existing : Schema) (maxT maxI : Nat)
    (runAction : SchemaAction → Option Err) (st : ImplState)
    (hbuild : SchemaUpdater.Build existing maxT maxI = .ok st) :
    SchemaUpdater.ValidateSchemaFromDDL [] (some existing) maxT maxI =
        .ok none ∧
      SchemaUpdater.UpdateSchemaFromDDL runAction existing [] maxT maxI =
        .ok { num_successful_statements := 0, updated_schema := none,
              backfill_status := none } := by
  constructor
  · unfold SchemaUpdater.ValidateSchemaFromDDL
    have hoe : SchemaUpdater.existingOrEmpty (some existing) = existing := rfl
    rw [hoe, hbuild]
    simp [SchemaUpdaterImpl.ApplyDDLStatements]
  · unfold SchemaUpdater.UpdateSchemaFromDDL
    rw [hbuild]
    simp [SchemaUpdaterImpl.ApplyDDLStatements,
      SchemaUpdater.RunPendingActions, SchemaUpdater.finishUpdate]

theorem emptyBatch_null_schema_witness :
    SchemaUpdater.Build SchemaUpdater.EmptySchema 5 5 =
        .ok { maxTables := 5, maxIndexes := 5 } ∧
      SchemaUpdater.ValidateSchemaFromDDL [] (some SchemaUpdater.EmptySchema)
          5 5 = .ok none ∧
      SchemaUpdater.UpdateSchemaFromDDL (fun _ => none)
          SchemaUpdater.EmptySchema [] 5 5 =
        .ok { num_successful_statements := 0, updated_schema := none,
              backfill_status := none } :=
  ⟨rfl,
   (emptyBatch_null_schema SchemaUpdater.EmptySchema 5 5 (fun _ => none)
     { maxTables := 5, maxIndexes := 5 } rfl).1,
   (emptyBatch_null_schema SchemaUpdater.EmptySchema 5 5 (fun _ => none)
     { maxTables := 5, maxIndexes := 5 } rfl).2⟩

/-- C4 counterexample: an ALTER TABLE statement carrying BOTH an
alter_column and an alter_constraint does not fail with an internal
error — the alter_constraint branch handles it (here an ALTER interleave
that succeeds), contradicting the claim that exactly one of the two must
be present. -/
theorem alterTable_both_present_no_internal_error :
    (({ table_name := "T",
        alter_column := some { type := .alter, column_name := "C" },
        alter_constraint := some { type := .alter,
                                   constraint := some (.interleave
                                     { parent := "P",
                                       on_delete_cascade := true }) } } :
      Ddl.AlterTable).alter_column.isSome = true) ∧
    (({ table_name := "T",
        alter_column := some { type := .alter, column_name := "C" },
        alter_constraint := some { type := .alter,
                                   constraint := some (.interleave
                                     { parent := "P",
                                       on_delete_cascade := true }) } } :
      Ddl.AlterTable).alter_constraint.isSome = true) ∧
    SchemaUpdaterImpl.AlterTable
        { latest_schema := { tables := [{ id := 0, name := "T" }] } }
        { table_name := "T",
          alter_column := some { type := .alter, column_name := "C" },
          alter_constraint := some { type := .alter,
                                     constraint := some (.interleave
                                       { parent := "P",
                                         on_delete_cascade := true }) } } =
      .ok { latest_schema :=
        { tables := [{ id := 0, name := "T", on_delete_cascade := true }] } } :=
  ⟨rfl, rfl, rfl⟩

/-- C4 (amended): at least one of alter_column or alter_constraint must be
present — with neither present the statement fails with an internal
error; when an alter_constraint is present it takes precedence and the
statement is handled by the constraint branch with the alter_column
ignored. -/
theorem alterTable_presence_check :
    (∀ (st : ImplState) (a : Ddl.AlterTable) (t : Table),
      st.latest_schema.FindTable a.table_name = some t →
      a.alter_column = none → a.alter_constraint = none →
      SchemaUpdaterImpl.AlterTable st a =
        .error (.Internal
          "alter_table has neither alter_column nor alter_constraint")) ∧
    (∀ (st : ImplState) (a : Ddl.AlterTable) (ac : Ddl.AlterConstraint)
        (t : Table),
      st.latest_schema.FindTable a.table_name = some t →
      a.alter_constraint = some ac →
      SchemaUpdaterImpl.AlterTable st a =
        SchemaUpdaterImpl.handleAlterConstraint st ac t) := by
  constructor
  · intro st a t hfind hcol hcon
    unfold SchemaUpdaterImpl.AlterTable
    rw [hfind]
    simp [hcol, hcon]
  · intro st a ac t hfind hcon
    unfold SchemaUpdaterImpl.AlterTable
    rw [hfind]
    simp [hcon]

theorem alterTable_presence_check_witness :
    (({ latest_schema := { tables := [{ id := 0, name := "T" }] } } :
        ImplState).latest_schema.FindTable "T" =
      some { id := 0, name := "T" } ∧
      SchemaUpdaterImpl.AlterTable
          { latest_schema := { tables := [{ id := 0, name := "T" }] } }
          { table_name := "T" } =
        .error (.Internal
          "alter_table has neither alter_column nor alter_constraint")) ∧
    SchemaUpdaterImpl.AlterTable
        { latest_schema := { tables := [{ id := 0, name := "T" }] } }
        { table_name := "T",
          alter_column := some { type := .alter, column_name := "C" },
          alter_constraint := some { type := .drop,
                                     constraint_name := some "FK1" } } =
      SchemaUpdaterImpl.handleAlterConstraint
        { latest_schema := { tables := [{ id := 0, name := "T" }] } }
        { type := .drop, constraint_name := some "FK1" }
        { id := 0, name := "T" } :=
  ⟨⟨by decide,
    alterTable_presence_check.1
      { latest_schema := { tables := [{ id := 0, name := "T" }] } }
      { table_name := "T" } { id := 0, name := "T" } (by decide) rfl rfl⟩,
   alterTable_presence_check.2
     { latest_schema := { tables := [{ id := 0, name := "T" }] } }
     { table_name := "T",
       alter_column := some { type := .alter, column_name := "C" },
       alter_constraint := some { type := .drop,
                                  constraint_name := some "FK1" } }
     { type := .drop, constraint_name := some "FK1" }
     { id := 0, name := "T" } (by decide) rfl⟩

theorem createTable_simple_step (st : ImplState) (n : String)
    (hfresh : st.global_names.any (fun p => ciEq p.2 n) = false)
    (hlt : st.latest_schema.tables.length < st.maxTables) :
    SchemaUpdaterImpl.CreateTable st { table_name := n } =
      .ok { st with
            latest_schema := { st.latest_schema with
              tables := st.latest_schema.tables ++
                [{ id := st.next_table_id, name := n }] },
            global_names := st.global_names ++ [("Table", n)],
            next_table_id := st.next_table_id + 1 } := by
  have h1 : ¬ st.maxTables ≤ st.latest_schema.tables.length := by omega
  unfold SchemaUpdaterImpl.CreateTable GlobalNames.AddName
  simp only [h1, if_false, hfresh, Bool.false_eq_true,
    SchemaUpdaterImpl.addTableColumns,
    SchemaUpdaterImpl.applyCreateTableConstraints]

theorem applyBatch_simple_creates_overflow :
    ∀ (front : List String) (st : ImplState) (lastName : String),
    front.Pairwise (fun a b => ciEq a b = false) →
    (∀ n ∈ front, ∀ p ∈ st.global_names, ciEq p.2 n = false) →
    st.latest_schema.tables.length + front.length = st.maxTables →
    SchemaUpdaterImpl.ApplyDDLStatements st
        ((front ++ [lastName]).map simpleCreateTable) =
      .error (.TooManyTablesPerDatabase lastName st.maxTables) := by
  intro front
  induction front with
  | nil =>
    intro st lastName _ _ hcount
    simp only [List.length_nil, Nat.add_zero] at hcount
    have hge : st.maxTables ≤ st.latest_schema.tables.length := by omega
    simp [SchemaUpdaterImpl.ApplyDDLStatements,
      SchemaUpdaterImpl.ApplyDDLStatement, simpleCreateTable,
      SchemaUpdaterImpl.CreateTable, hge]
  | cons n rest ih =>
    intro st lastName hdist hfresh hcount
    obtain ⟨sch, gn, nti, nci, pend, mt, mi⟩ := st
    obtain ⟨tbls, idxs⟩ := sch
    simp only [List.length_cons] at hcount
    simp only at hfresh hcount
    have hfreshn : gn.any (fun p => ciEq p.2 n) = false := by
      simp only [List.any_eq_false]
      intro p hp
      simp only [Bool.not_eq_true]
      exact hfresh n (by simp) p hp
    have hlt : tbls.length < mt := by omega
    have hstep := createTable_simple_step
      ⟨⟨tbls, idxs⟩, gn, nti, nci, [], mt, mi⟩ n hfreshn hlt
    simp only at hstep
    rw [List.cons_append, List.map_cons]
    unfold SchemaUpdaterImpl.ApplyDDLStatements
    simp only [simpleCreateTable, SchemaUpdaterImpl.ApplyDDLStatement]
    rw [hstep]
    have hih := ih ⟨⟨tbls ++ [{ id := nti, name := n }], idxs⟩,
        gn ++ [("Table", n)], nti + 1, nci, [], mt, mi⟩ lastName
      (List.Pairwise.of_cons hdist) ?_ ?_
    · simp only [hih]
    · rcases List.pairwise_cons.mp hdist with ⟨hn, _⟩
      intro m hm p hp
      simp only [List.mem_append, List.mem_singleton] at hp
      rcases hp with hp | hp
      · exact hfresh m (by simp [hm]) p hp
      · subst hp
        exact hn m hm
    · simp only [List.length_append, List.length_singleton]
      omega

/-- C7: a CREATE TABLE applied when the latest snapshot already holds
MAX_TABLES tables fails with `TooManyTablesPerDatabase` (the check is the
first step of `CreateTable`, before any name registration or node
addition); consequently, in a batch of CREATE TABLE statements with
pairwise distinct names over an initially empty schema, the
(MAX_TABLES + 1)-th statement fails with that error. -/
theorem createTable_table_limit :
    (∀ (st : ImplState) (ct : Ddl.CreateTable),
      st.maxTables ≤ st.latest_schema.tables.length →
      SchemaUpdaterImpl.CreateTable st ct =
        .error (.TooManyTablesPerDatabase ct.table_name st.maxTables)) ∧
    (∀ (front : List String) (lastName : String) (maxI : Nat)
        (runAction : SchemaAction → Option Err),
      front.Pairwise (fun a b => ciEq a b = false) →
      SchemaUpdater.UpdateSchemaFromDDL runAction SchemaUpdater.EmptySchema
          ((front ++ [lastName]).map simpleCreateTable) front.length maxI =
        .error (.TooManyTablesPerDatabase lastName front.length)) := by
  constructor
  · intro st ct hge
    unfold SchemaUpdaterImpl.CreateTable
    simp [hge]
  · intro front lastName maxI runAction hdist
    have hbuild : SchemaUpdater.Build SchemaUpdater.EmptySchema front.length
        maxI = .ok { maxTables := front.length, maxIndexes := maxI } := rfl
    unfold SchemaUpdater.UpdateSchemaFromDDL
    rw [hbuild]
    have happly := applyBatch_simple_creates_overflow front
      { maxTables := front.length, maxIndexes := maxI } lastName hdist
      (by intro n hn p hp; simp at hp) (by simp)
    simp only [happly]

theorem createTable_table_limit_witness :
    (({ maxTables := 0 } : ImplState).maxTables ≤
        ({ maxTables := 0 } : ImplState).latest_schema.tables.length ∧
      SchemaUpdaterImpl.CreateTable { maxTables := 0 } { table_name := "X" } =
        .error (.TooManyTablesPerDatabase "X" 0)) ∧
    (List.Pairwise (fun a b => ciEq a b = false) ["T1"] ∧
      SchemaUpdater.UpdateSchemaFromDDL (fun _ => none)
          SchemaUpdater.EmptySchema
          ((["T1"] ++ ["T2"]).map simpleCreateTable) (["T1"].length) 0 =
        .error (.TooManyTablesPerDatabase "T2" (["T1"].length))) :=
  ⟨⟨by decide,
    createTable_table_limit.1 { maxTables := 0 } { table_name := "X" }
      (by decide)⟩,
   ⟨by simp,
    createTable_table_limit.2 ["T1"] "T2" 0 (fun _ => none) (by simp)⟩⟩

theorem runSchemaChangeActions_eq (runAction : SchemaAction → Option Err) :
    ∀ (l : List SchemaAction),
    SchemaUpdater.RunSchemaChangeActions runAction l =
      (l.filterMap runAction).head? := by
  intro l
  induction l with
  | nil => rfl
  | cons a rest ih =>
    cases h : runAction a with
    | some e =>
      simp [SchemaUpdater.RunSchemaChangeActions, h, List.filterMap_cons]
    | none =>
      simp [SchemaUpdater.RunSchemaChangeActions, h, List.filterMap_cons, ih]

theorem statementActionsOk_iff (runAction : SchemaAction → Option Err)
    (w : SchemaUpdaterImpl.StatementWork) :
    statementActionsOk runAction w = true ↔
      w.actions.filterMap runAction = [] := by
  simp [statementActionsOk, List.filterMap_eq_nil_iff, List.all_eq_true,
    Option.isNone_iff_eq_none]

theorem runPendingActions_eq (runAction : SchemaAction → Option Err) :
    ∀ (work : List SchemaUpdaterImpl.StatementWork),
    SchemaUpdater.RunPendingActions runAction work =
      (successPrefixLength runAction work,
        firstActionFailure runAction work) := by
  intro work
  induction work with
  | nil => rfl
  | cons w rest ih =>
    cases h : SchemaUpdater.RunSchemaChangeActions runAction w.actions with
    | some e =>
      have hfm : (w.actions.filterMap runAction).head? = some e := by
        rw [← runSchemaChangeActions_eq]; exact h
      obtain ⟨t, ht⟩ := List.head?_eq_some_iff.mp hfm
      have hono : statementActionsOk runAction w = false := by
        cases hsa : statementActionsOk runAction w
        · rfl
        · rw [statementActionsOk_iff] at hsa
          rw [hsa] at ht
          exact absurd ht (by simp)
      unfold SchemaUpdater.RunPendingActions
      rw [h]
      unfold successPrefixLength firstActionFailure
      simp [List.takeWhile_cons, hono, List.filterMap_append, ht]
    | none =>
      have hfm : (w.actions.filterMap runAction).head? = none := by
        rw [← runSchemaChangeActions_eq]; exact h
      have hnil : w.actions.filterMap runAction = [] :=
        List.head?_eq_none_iff.mp hfm
      have hok : statementActionsOk runAction w = true :=
        (statementActionsOk_iff runAction w).mpr hnil
      unfold SchemaUpdater.RunPendingActions
      rw [h, ih]
      unfold successPrefixLength firstActionFailure
      simp [List.takeWhile_cons, hok, List.filterMap_append, hnil]

/-- C1: once the whole batch passes structural validation, the deferred
actions of the statements run in order and the first failing action stops
the run; the returned `num_successful_statements` is the length of the
prefix of statements all of whose actions succeeded, `updated_schema` is
the intermediate snapshot produced after exactly that many statements
(null when the count is zero), and `backfill_status` is the first action
failure in order, or OK when none failed. -/
theorem updateSchemaFromDDL_action_semantics
    (runAction : SchemaAction → Option Err) (existing : Schema)
    (statements : List Ddl.DDLStatement) (maxT maxI : Nat)
    (st₀ st₁ : ImplState) (work : List SchemaUpdaterImpl.StatementWork)
    (hbuild : SchemaUpdater.Build existing maxT maxI = .ok st₀)
    (happly : SchemaUpdaterImpl.ApplyDDLStatements st₀ statements =
      .ok (work, st₁)) :
    SchemaUpdater.UpdateSchemaFromDDL runAction existing statements
        maxT maxI =
      .ok { num_successful_statements := successPrefixLength runAction work,
            updated_schema :=
              if 0 < successPrefixLength runAction work then
                (work.map (fun w => w.snapshot))[
                  successPrefixLength runAction work - 1]?
              else none,
            backfill_status := firstActionFailure runAction work } := by
  have hle : successPrefixLength runAction work ≤ work.length := by
    unfold successPrefixLength
    exact (List.takeWhile_prefix _).length_le
  unfold SchemaUpdater.UpdateSchemaFromDDL
  rw [hbuild]
  simp only [happly, runPendingActions_eq]
  unfold SchemaUpdater.finishUpdate
  simp [hle]

theorem updateSchemaFromDDL_action_semantics_witness :
    SchemaUpdater.Build SchemaUpdater.EmptySchema 1 0 =
        .ok { maxTables := 1, maxIndexes := 0 } ∧
      SchemaUpdaterImpl.ApplyDDLStatements { maxTables := 1, maxIndexes := 0 }
          [simpleCreateTable "T"] =
        .ok ([{ snapshot := { tables := [{ id := 0, name := "T" }] },
                actions := [] }],
             { latest_schema := { tables := [{ id := 0, name := "T" }] },
               global_names := [("Table", "T")], next_table_id := 1,
               maxTables := 1, maxIndexes := 0 }) ∧
      SchemaUpdater.UpdateSchemaFromDDL (fun _ => none)
          SchemaUpdater.EmptySchema [simpleCreateTable "T"] 1 0 =
        .ok { num_successful_statements := 1,
              updated_schema := some { tables := [{ id := 0, name := "T" }] },
              backfill_status := none } :=
  ⟨rfl, rfl,
   updateSchemaFromDDL_action_semantics (fun _ => none)
     SchemaUpdater.EmptySchema [simpleCreateTable "T"] 1 0
     { maxTables := 1, maxIndexes := 0 }
     { latest_schema := { tables := [{ id := 0, name := "T" }] },
       global_names := [("Table", "T")], next_table_id := 1,
       maxTables := 1, maxIndexes := 0 }
     [{ snapshot := { tables := [{ id := 0, name := "T" }] },
        actions := [] }] rfl rfl⟩

/-- C3 counterexample: the clone lookup of a declared index key column is
not case-sensitive — with an indexed table whose only column is named
"Col", the declared key name "col" still resolves and is cloned (with the
canonical name "Col"), whereas the claimed case-sensitive lookup finds
nothing at this input and would have to fail with
`IndexRefsNonExistentColumn`. -/
theorem createIndexDataTableColumn_lookup_counterexample :
    (({ columns := [{ id := 5, name := "Col" }] } :
        Table).FindColumnCaseSensitive "col" = none) ∧
    SchemaUpdaterImpl.CreateIndexDataTableColumn { next_column_id := 9 }
        { columns := [{ id := 5, name := "Col" }] } "col"
        { name := "_index_data_I", owner_index := some "I" } false =
      .ok ({ id := 9, name := "Col", source_column := some 5 },
           { next_column_id := 10 }) :=
  ⟨rfl, rfl⟩

/-- C3 (amended): each declared index key column is cloned from the
indexed table by case-insensitive name lookup (`FindColumn`) into a new
column of the index data table whose `source_column` is the original and
whose name is the canonical source name; when the index is null_filtered
the clone is forced non-nullable, otherwise it inherits the nullability of
the source; a name that resolves to no column fails with
`IndexRefsNonExistentColumn`. -/
theorem createIndexDataTableColumn_clone :
    (∀ (st : ImplState) (indexed dataT : Table) (n : String) (f : Bool),
      indexed.FindColumn n = none →
      SchemaUpdaterImpl.CreateIndexDataTableColumn st indexed n dataT f =
        .error (.IndexRefsNonExistentColumn
          (SchemaUpdaterImpl.ownerIndexNameOf dataT) n)) ∧
    (∀ (st : ImplState) (indexed dataT : Table) (n : String) (f : Bool)
        (src : Column),
      indexed.FindColumn n = some src →
      (SchemaUpdaterImpl.CreateIndexDataTableColumn st indexed n dataT f =
          .ok ({ id := st.next_column_id, name := src.name,
                 source_column := some src.id,
                 nullable := if f then false else src.nullable },
               { st with next_column_id := st.next_column_id + 1 })) ∧
        src ∈ indexed.columns ∧ ciEq src.name n = true) := by
  constructor
  · intro st indexed dataT n f h
    unfold SchemaUpdaterImpl.CreateIndexDataTableColumn
    rw [h]
  · intro st indexed dataT n f src h
    refine ⟨?_, findColumn_mem h, findColumn_ciEq h⟩
    unfold SchemaUpdaterImpl.CreateIndexDataTableColumn
    rw [h]

theorem createIndexDataTableColumn_clone_witness :
    (({ columns := [{ id := 5, name := "Col" }] } :
        Table).FindColumn "Zip" = none ∧
      SchemaUpdaterImpl.CreateIndexDataTableColumn { next_column_id := 9 }
          { columns := [{ id := 5, name := "Col" }] } "Zip"
          { name := "_index_data_I", owner_index := some "I" } true =
        .error (.IndexRefsNonExistentColumn "I" "Zip")) ∧
    (({ columns := [{ id := 5, name := "Col" }] } :
        Table).FindColumn "col" = some { id := 5, name := "Col" } ∧
      SchemaUpdaterImpl.CreateIndexDataTableColumn { next_column_id := 9 }
          { columns := [{ id := 5, name := "Col" }] } "col"
          { name := "_index_data_I", owner_index := some "I" } true =
        .ok ({ id := 9, name := "Col", source_column := some 5,
               nullable := false },
             { next_column_id := 10 })) :=
  ⟨⟨by decide,
    createIndexDataTableColumn_clone.1 { next_column_id := 9 }
      { columns := [{ id := 5, name := "Col" }] }
      { name := "_index_data_I", owner_index := some "I" } "Zip" true
      (by decide)⟩,
   ⟨by decide,
    (createIndexDataTableColumn_clone.2 { next_column_id := 9 }
      { columns := [{ id := 5, name := "Col" }] }
      { name := "_index_data_I", owner_index := some "I" } "col" true
      { id := 5, name := "Col" } (by decide)).1⟩⟩

theorem findColumn_isSome (t : Table) (n : String) :
    (t.FindColumn n).isSome = t.columns.any (fun c => ciEq c.name n) := by
  unfold Table.FindColumn
  induction t.columns with
  | nil => rfl
  | cons c rest ih =>
    cases h : ciEq c.name n with
    | true => simp [List.find?_cons, h]
    | false => simp [List.find?_cons, h, ih]

theorem createIndexDataTableColumn_ok {st : ImplState}
    {indexed dataT : Table} {n : String} {f : Bool} {c : Column}
    {s₂ : ImplState}
    (h : SchemaUpdaterImpl.CreateIndexDataTableColumn st indexed n dataT f =
      .ok (c, s₂)) :
    ∃ src, indexed.FindColumn n = some src ∧
      c = { id := st.next_column_id, name := src.name,
            source_column := some src.id,
            nullable := if f then false else src.nullable } ∧
      s₂ = { st with next_column_id := st.next_column_id + 1 } := by
  unfold SchemaUpdaterImpl.CreateIndexDataTableColumn at h
  cases hf : indexed.FindColumn n with
  | none => rw [hf] at h; exact absurd h (by simp)
  | some src =>
    rw [hf] at h
    simp only [Except.ok.injEq, Prod.mk.injEq] at h
    exact ⟨src, rfl, h.1.symm, h.2.symm⟩

theorem addIndexKeyColumns_spec :
    ∀ (parts : List Ddl.KeyPart) (indexed : Table) (f : Bool) (b : Table)
      (st : ImplState) (b' : Table) (s' : ImplState),
    SchemaUpdaterImpl.addIndexKeyColumns indexed f parts b st =
      .ok (b', s') →
    ∃ clones, b'.columns = b.columns ++ clones ∧
      List.Forall₂
        (fun (c : Column) (p : Ddl.KeyPart) =>
          ciEq c.name p.key_column_name = true) clones parts ∧
      b'.primary_key = b.primary_key := by
  intro parts
  induction parts with
  | nil =>
    intro indexed f b st b' s' h
    unfold SchemaUpdaterImpl.addIndexKeyColumns at h
    simp only [Except.ok.injEq, Prod.mk.injEq] at h
    exact ⟨[], by simp [h.1.symm], by simp [List.Forall₂], by rw [← h.1]⟩
  | cons p rest ih =>
    intro indexed f b st b' s' h
    unfold SchemaUpdaterImpl.addIndexKeyColumns at h
    cases hc : SchemaUpdaterImpl.CreateIndexDataTableColumn st indexed
        p.key_column_name b f with
    | error e => rw [hc] at h; exact absurd h (by simp)
    | ok cs =>
      rw [hc] at h
      obtain ⟨c, s₂⟩ := cs
      obtain ⟨src, hfind, hcol, _⟩ := createIndexDataTableColumn_ok hc
      obtain ⟨clones, hcols, hrel, hpk⟩ := ih indexed f
        (b.add_column c) s₂ b' s' h
      refine ⟨c :: clones, ?_, ?_, ?_⟩
      · rw [hcols]
        simp [Table.add_column]
      · refine List.Forall₂.cons ?_ hrel
        rw [hcol]
        simpa using findColumn_ciEq hfind
      · rw [hpk]
        rfl

theorem ciEq_name_eq {c : Column} {p m : String}
    (h : ciEq c.name p = true) :
    ciEq c.name m = ciEq p m := by
  cases hm : ciEq p m with
  | true => exact ciEq_of_ciEq_ciEq h hm
  | false => exact ciEq_false_of_ciEq (ciEq_symm h) hm

theorem addTablePKColumns_spec :
    ∀ (pkcols : List KeyColumn) (indexed : Table) (f : Bool) (b : Table)
      (l : List Ddl.KeyPart) (st : ImplState) (b' : Table)
      (l' : List Ddl.KeyPart) (s' : ImplState),
    SchemaUpdaterImpl.addTablePKColumns indexed f pkcols b l st =
      .ok (b', l', s') →
    List.Pairwise
      (fun a c => ciEq a.column.name c.column.name = false) pkcols →
    l' = l ++ (pkcols.filter (fun kc =>
        !(b.columns.any (fun c => ciEq c.name kc.column.name)))).map
      (fun kc => { key_column_name := kc.column.name,
                   desc := kc.descending }) ∧
      b'.primary_key = b.primary_key := by
  intro pkcols
  induction pkcols with
  | nil =>
    intro indexed f b l st b' l' s' h _
    unfold SchemaUpdaterImpl.addTablePKColumns at h
    simp only [Except.ok.injEq, Prod.mk.injEq] at h
    exact ⟨by simp [h.2.1.symm], by rw [← h.1]⟩
  | cons kc rest ih =>
    intro indexed f b l st b' l' s' h hdist
    obtain ⟨hhead, htail⟩ := List.pairwise_cons.mp hdist
    unfold SchemaUpdaterImpl.addTablePKColumns at h
    cases hskip : (b.FindColumn kc.column.name).isSome with
    | true =>
      rw [hskip] at h
      simp only [if_true] at h
      obtain ⟨hl, hpk⟩ := ih indexed f b l st b' l' s' h htail
      have hany : b.columns.any (fun c => ciEq c.name kc.column.name) =
          true := by
        rw [← findColumn_isSome]; exact hskip
      refine ⟨?_, hpk⟩
      rw [hl]
      simp [List.filter_cons, hany]
    | false =>
      rw [hskip] at h
      simp only [Bool.false_eq_true, if_false] at h
      cases hc : SchemaUpdaterImpl.CreateIndexDataTableColumn st indexed
          kc.column.name b f with
      | error e => rw [hc] at h; exact absurd h (by simp)
      | ok cs =>
        rw [hc] at h
        obtain ⟨c, s₂⟩ := cs
        obtain ⟨src, hfind, hcol, _⟩ := createIndexDataTableColumn_ok hc
        have hcname : ciEq c.name kc.column.name = true := by
          rw [hcol]
          simpa using findColumn_ciEq hfind
        obtain ⟨hl, hpk⟩ := ih indexed f (b.add_column c)
          (l ++ [{ key_column_name := kc.column.name,
                   desc := kc.descending }]) s₂ b' l' s' h htail
        have hany : b.columns.any (fun c => ciEq c.name kc.column.name) =
            false := by
          rw [← findColumn_isSome]
          simp [hskip]
        have hfilter : rest.filter (fun kc2 =>
            !((b.add_column c).columns.any
              (fun c2 => ciEq c2.name kc2.column.name))) =
            rest.filter (fun kc2 =>
              !(b.columns.any (fun c2 => ciEq c2.name kc2.column.name))) := by
          apply List.filter_congr
          intro kc2 hmem
          have hnotc : ciEq c.name kc2.column.name = false := by
            rw [ciEq_name_eq hcname]
            exact hhead kc2 hmem
          simp [Table.add_column, List.any_append, hnotc]
        refine ⟨?_, by rw [hpk]; rfl⟩
        rw [hl, hfilter]
        simp [List.filter_cons, hany]

theorem createPrimaryKeyConstraint_spec :
    ∀ (parts : List Ddl.KeyPart) (b b' : Table),
    SchemaUpdaterImpl.CreatePrimaryKeyConstraint parts b = .ok b' →
    b'.columns = b.columns ∧
      b'.primary_key.map (fun kc => (kc.column.name, kc.descending)) =
        b.primary_key.map (fun kc => (kc.column.name, kc.descending)) ++
          parts.map (fun p => (p.key_column_name, p.desc)) := by
  intro parts
  induction parts with
  | nil =>
    intro b b' h
    unfold SchemaUpdaterImpl.CreatePrimaryKeyConstraint at h
    cases h
    exact ⟨rfl, by simp⟩
  | cons p rest ih =>
    intro b b' h
    unfold SchemaUpdaterImpl.CreatePrimaryKeyConstraint at h
    cases hc : SchemaUpdaterImpl.CreatePrimaryKeyColumn b p with
    | error e => rw [hc] at h; exact absurd h (by simp)
    | ok kc =>
      rw [hc] at h
      have hkc : ∃ c, b.FindColumnCaseSensitive p.key_column_name = some c ∧
          kc = { column := c, descending := p.desc } := by
        unfold SchemaUpdaterImpl.CreatePrimaryKeyColumn at hc
        cases hf : b.FindColumnCaseSensitive p.key_column_name with
        | none => rw [hf] at hc; exact absurd hc (by simp)
        | some c =>
          rw [hf] at hc
          cases hc
          exact ⟨c, rfl, rfl⟩
      obtain ⟨c, hf, hkceq⟩ := hkc
      obtain ⟨hcols, hmap⟩ := ih (b.add_key_column kc) b' h
      refine ⟨hcols.trans rfl, ?_⟩
      rw [hmap]
      simp [Table.add_key_column, hkceq, findColumnCaseSensitive_name hf]

theorem createInterleaveConstraint_ok {st : ImplState}
    {ic : Ddl.InterleaveConstraint} {b b' : Table} {s' : ImplState}
    (h : SchemaUpdaterImpl.CreateInterleaveConstraint st ic b =
      .ok (b', s')) :
    b'.columns = b.columns ∧ b'.primary_key = b.primary_key := by
  unfold SchemaUpdaterImpl.CreateInterleaveConstraint at h
  cases hf : st.latest_schema.FindTable ic.parent with
  | none =>
    rw [hf] at h
    cases ho : b.owner_index with
    | none => rw [ho] at h; exact absurd h (by simp)
    | some o => rw [ho] at h; exact absurd h (by simp)
  | some parent =>
    cases hbp : b.parent with
    | some q =>
      rw [hf] at h
      rw [hbp] at h
      exact absurd h (by simp)
    | none =>
      simp only [hf, hbp, Except.ok.injEq, Prod.mk.injEq] at h
      obtain ⟨h1, _⟩ := h
      subst h1
      exact ⟨rfl, rfl⟩

theorem processIndexConstraints_append :
    ∀ (l₁ l₂ : List Ddl.Constraint) (index : Index) (indexed b : Table)
      (keys : List KeyColumn) (st : ImplState),
    SchemaUpdaterImpl.processIndexConstraints index indexed (l₁ ++ l₂)
        b keys st =
      (match SchemaUpdaterImpl.processIndexConstraints index indexed l₁
          b keys st with
       | .error e => .error e
       | .ok (b', keys', s') =>
         SchemaUpdaterImpl.processIndexConstraints index indexed l₂
           b' keys' s') := by
  intro l₁
  induction l₁ with
  | nil =>
    intro l₂ index indexed b keys st
    simp [SchemaUpdaterImpl.processIndexConstraints]
  | cons c rest ih =>
    intro l₂ index indexed b keys st
    cases c with
    | primaryKey pk =>
      rw [List.cons_append]
      cases h1 : SchemaUpdaterImpl.addIndexKeyColumns indexed
          index.null_filtered pk.key_part b st with
      | error e =>
        simp only [SchemaUpdaterImpl.processIndexConstraints, h1]
      | ok r1 =>
        obtain ⟨b1, s1⟩ := r1
        cases h2 : SchemaUpdaterImpl.addTablePKColumns indexed
            index.null_filtered indexed.primary_key b1 [] s1 with
        | error e =>
          simp only [SchemaUpdaterImpl.processIndexConstraints, h1, h2]
        | ok r2 =>
          obtain ⟨b2, appended, s2⟩ := r2
          cases h3 : SchemaUpdaterImpl.CreatePrimaryKeyConstraint
              (pk.key_part ++ appended) b2 with
          | error e =>
            simp only [SchemaUpdaterImpl.processIndexConstraints, h1, h2, h3]
          | ok b3 =>
            simp only [SchemaUpdaterImpl.processIndexConstraints, h1, h2, h3]
            exact ih l₂ index indexed b3
              (keys ++ b3.primary_key.take pk.key_part.length) s2
    | interleave ic =>
      rw [List.cons_append]
      cases h1 : SchemaUpdaterImpl.CreateInterleaveConstraint st
          { parent := ic.parent, on_delete_cascade := true } b with
      | error e =>
        simp only [SchemaUpdaterImpl.processIndexConstraints, h1]
      | ok r1 =>
        obtain ⟨b1, s1⟩ := r1
        simp only [SchemaUpdaterImpl.processIndexConstraints, h1]
        exact ih l₂ index indexed b1 keys s1
    | foreignKey fk =>
      rw [List.cons_append]
      simp only [SchemaUpdaterImpl.processIndexConstraints]
    | unsupported =>
      rw [List.cons_append]
      simp only [SchemaUpdaterImpl.processIndexConstraints]

theorem processIndexConstraints_interleaves :
    ∀ (l : List Ddl.Constraint),
    (∀ c ∈ l, ∃ ic, c = Ddl.Constraint.interleave ic) →
    ∀ (index : Index) (indexed b : Table) (keys : List KeyColumn)
      (st : ImplState) (b' : Table) (keys' : List KeyColumn)
      (s' : ImplState),
    SchemaUpdaterImpl.processIndexConstraints index indexed l b keys st =
      .ok (b', keys', s') →
    b'.columns = b.columns ∧ b'.primary_key = b.primary_key ∧
      keys' = keys := by
  intro l
  induction l with
  | nil =>
    intro _ index indexed b keys st b' keys' s' h
    unfold SchemaUpdaterImpl.processIndexConstraints at h
    simp only [Except.ok.injEq, Prod.mk.injEq] at h
    exact ⟨by rw [← h.1], by rw [← h.1], h.2.1.symm⟩
  | cons c rest ih =>
    intro hall index indexed b keys st b' keys' s' h
    obtain ⟨ic, hic⟩ := hall c (by simp)
    subst hic
    cases h1 : SchemaUpdaterImpl.CreateInterleaveConstraint st
        { parent := ic.parent, on_delete_cascade := true } b with
    | error e =>
      simp only [SchemaUpdaterImpl.processIndexConstraints, h1] at h
      exact absurd h (by simp)
    | ok r1 =>
      obtain ⟨b1, s1⟩ := r1
      simp only [SchemaUpdaterImpl.processIndexConstraints, h1] at h
      obtain ⟨hc1, hp1⟩ := createInterleaveConstraint_ok h1
      obtain ⟨hc2, hp2, hk⟩ := ih (fun c hc => hall c (by simp [hc]))
        index indexed b1 keys s1 b' keys' s' h
      exact ⟨hc2.trans hc1, hp2.trans hp1, hk⟩

theorem addStoredColumns_pk :
    ∀ (ds : List Ddl.ColumnDefinition) (indexed b : Table)
      (sc : List Column) (st : ImplState) (b' : Table) (sc' : List Column)
      (s' : ImplState),
    SchemaUpdaterImpl.addStoredColumns indexed ds b sc st =
      .ok (b', sc', s') →
    b'.primary_key = b.primary_key := by
  intro ds
  induction ds with
  | nil =>
    intro indexed b sc st b' sc' s' h
    unfold SchemaUpdaterImpl.addStoredColumns at h
    simp only [Except.ok.injEq, Prod.mk.injEq] at h
    rw [← h.1]
  | cons d rest ih =>
    intro indexed b sc st b' sc' s' h
    unfold SchemaUpdaterImpl.addStoredColumns at h
    by_cases hok : (match d.properties with
      | some props =>
        match props.stored with
        | some s => s == d.column_name
        | none => false
      | none => false : Bool) = true
    · rw [if_pos hok] at h
      cases hc : SchemaUpdaterImpl.CreateIndexDataTableColumn st indexed
          d.column_name b false with
      | error e => rw [hc] at h; exact absurd h (by simp)
      | ok cs =>
        rw [hc] at h
        obtain ⟨c, s₂⟩ := cs
        have := ih indexed (b.add_column c) (sc ++ [c]) s₂ b' sc' s' h
        rw [this]
        rfl
    · rw [if_neg hok] at h
      exact absurd h (by simp)

theorem any_ciEq_eq_of_forall₂ :
    ∀ {clones : List Column} {parts : List Ddl.KeyPart},
    List.Forall₂ (fun (c : Column) (p : Ddl.KeyPart) =>
      ciEq c.name p.key_column_name = true) clones parts →
    ∀ (m : String), clones.any (fun c => ciEq c.name m) =
      parts.any (fun p => ciEq p.key_column_name m) := by
  intro clones parts h
  induction h with
  | nil => intro m; rfl
  | cons hcp htl ih =>
    intro m
    simp only [List.any_cons, ih]
    rw [ciEq_name_eq hcp]

theorem createIndexDataTable_spec
    (st : ImplState) (d : Ddl.CreateIndex) (index : Index)
    (indexed : Table) (pre post : List Ddl.Constraint)
    (pk : Ddl.PrimaryKeyConstraint) (dt : Table)
    (keyCols : List KeyColumn) (stored : List Column) (s' : ImplState)
    (hc : d.constraints = pre ++ Ddl.Constraint.primaryKey pk :: post)
    (hpre : ∀ c ∈ pre, ∃ ic, c = Ddl.Constraint.interleave ic)
    (hpost : ∀ c ∈ post, ∃ ic, c = Ddl.Constraint.interleave ic)
    (hdist : indexed.primary_key.Pairwise
      (fun a c => ciEq a.column.name c.column.name = false))
    (hok : SchemaUpdaterImpl.CreateIndexDataTable st d index indexed =
      .ok (dt, keyCols, stored, s')) :
    dt.primary_key.map (fun kc => (kc.column.name, kc.descending)) =
      pk.key_part.map (fun p => (p.key_column_name, p.desc)) ++
        (indexed.primary_key.filter (fun kc =>
          !(pk.key_part.any (fun p =>
            ciEq p.key_column_name kc.column.name)))).map
          (fun kc => (kc.column.name, kc.descending)) ∧
    keyCols = dt.primary_key.take pk.key_part.length := by
  simp only [SchemaUpdaterImpl.CreateIndexDataTable, hc,
    processIndexConstraints_append] at hok
  split at hok
  · exact absurd hok (by simp)
  · rename_i b1 keys1 s1 heq1
    split at heq1
    · exact absurd heq1 (by simp)
    · rename_i b0r keys0 s0 heq0
      obtain ⟨hc0, hp0, hk0⟩ := processIndexConstraints_interleaves pre hpre
        index indexed _ _ _ b0r keys0 s0 heq0
      simp only at hc0 hp0
      simp only [SchemaUpdaterImpl.processIndexConstraints] at heq1
      split at heq1
      · exact absurd heq1 (by simp)
      · rename_i b2 s2 heqA
        split at heq1
        · exact absurd heq1 (by simp)
        · rename_i b3 appended s3 heqB
          split at heq1
          · exact absurd heq1 (by simp)
          · rename_i b4 heqC
            obtain ⟨hc5, hp5, hk5⟩ :=
              processIndexConstraints_interleaves post hpost index indexed
                b4 _ s3 b1 keys1 s1 heq1
            split at hok
            · exact absurd hok (by simp)
            · rename_i dtb storedc s4 heqS
              simp only [Except.ok.injEq, Prod.mk.injEq] at hok
              obtain ⟨hdt, hkeys, hstored, hs⟩ := hok
              subst hdt
              subst hkeys
              obtain ⟨clones, hcols2, hrel, hpk2⟩ :=
                addIndexKeyColumns_spec pk.key_part indexed
                  index.null_filtered b0r s0 b2 s2 heqA
              obtain ⟨happ, hpk3⟩ :=
                addTablePKColumns_spec indexed.primary_key indexed
                  index.null_filtered b2 [] s2 b3 appended s3 heqB hdist
              obtain ⟨hcols4, hmap4⟩ :=
                createPrimaryKeyConstraint_spec (pk.key_part ++ appended)
                  b3 b4 heqC
              have hdtpk : dtb.primary_key = b4.primary_key :=
                (addStoredColumns_pk d.columns indexed b1 [] s1 dtb
                  storedc s4 heqS).trans hp5
              have hfiltereq :
                  indexed.primary_key.filter (fun kc =>
                    !(b2.columns.any (fun c2 =>
                      ciEq c2.name kc.column.name))) =
                  indexed.primary_key.filter (fun kc =>
                    !(pk.key_part.any (fun p =>
                      ciEq p.key_column_name kc.column.name))) := by
                apply List.filter_congr
                intro kc _
                rw [hcols2, hc0]
                simp only [List.nil_append]
                rw [any_ciEq_eq_of_forall₂ hrel]
              constructor
              · rw [hdtpk, hmap4, hpk3, hpk2, hp0]
                rw [happ, hfiltereq]
                simp [List.map_map, Function.comp]
              · rw [hk5, hk0, hdtpk]
                simp


/-- C2: for a successful CREATE INDEX (whose constraint list carries one
primary-key constraint among interleave constraints, against an indexed
table whose primary-key column names are pairwise distinct under the
case-insensitive comparison), the primary key of the created index data
table consists of the declared index key columns in declaration order
followed by every primary-key column of the indexed table not already
among them, in the indexed table primary-key order with each descending
flag preserved; and the key_columns of the index are exactly the prefix of
that primary key of length equal to the number of declared keys. -/
theorem createIndex_key_columns_prefix
    (st : ImplState) (d : Ddl.CreateIndex) (indexed : Table)
    (pre post : List Ddl.Constraint) (pk : Ddl.PrimaryKeyConstraint)
    (st₂ : ImplState)
    (hfind : st.latest_schema.FindTable d.table_name = some indexed)
    (hc : d.constraints = pre ++ Ddl.Constraint.primaryKey pk :: post)
    (hpre : ∀ c ∈ pre, ∃ ic, c = Ddl.Constraint.interleave ic)
    (hpost : ∀ c ∈ post, ∃ ic, c = Ddl.Constraint.interleave ic)
    (hdist : indexed.primary_key.Pairwise
      (fun a c => ciEq a.column.name c.column.name = false))
    (hok : SchemaUpdaterImpl.CreateIndex st d = .ok st₂) :
    ∃ idx dt, st₂.latest_schema.indexes.getLast? = some idx ∧
      idx.index_data_table = some dt ∧
      dt.primary_key.map (fun kc => (kc.column.name, kc.descending)) =
        pk.key_part.map (fun p => (p.key_column_name, p.desc)) ++
          (indexed.primary_key.filter (fun kc =>
            !(pk.key_part.any (fun p =>
              ciEq p.key_column_name kc.column.name)))).map
            (fun kc => (kc.column.name, kc.descending)) ∧
      idx.key_columns = dt.primary_key.take pk.key_part.length := by
  simp only [SchemaUpdaterImpl.CreateIndex, hfind] at hok
  split at hok
  · exact absurd hok (by simp)
  · split at hok
    · exact absurd hok (by simp)
    · rename_i nmRes nms hadd
      split at hok
      · exact absurd hok (by simp)
      · rename_i dt2 kc2 sc2 s5 hdt2
        simp only [Except.ok.injEq] at hok
        subst hok
        obtain ⟨hmap, hkeys⟩ := createIndexDataTable_spec _ d _ indexed
          pre post pk dt2 kc2 sc2 s5 hc hpre hpost hdist hdt2
        refine ⟨{ name := d.index_name,
                  is_unique := d.properties.is_unique,
                  null_filtered := d.properties.null_filtered,
                  indexed_table_name := indexed.name,
                  index_data_table := some dt2,
                  key_columns := kc2,
                  stored_columns := sc2 }, dt2, ?_, rfl, hmap, hkeys⟩
        simp [Schema.updateTable, List.getLast?_concat]

theorem createIndex_key_columns_prefix_witness :
    ({ latest_schema :=
         { tables := [{ id := 0, name := "T1",
                        columns := [{ id := 0, name := "C1" }],
                        primary_key :=
                          [{ column := { id := 0, name := "C1" } }] }] },
       global_names := [("Table", "T1")],
       next_table_id := 1, next_column_id := 1,
       maxTables := 10, maxIndexes := 10 } :
      ImplState).latest_schema.FindTable "T1" =
        some { id := 0, name := "T1",
               columns := [{ id := 0, name := "C1" }],
               primary_key := [{ column := { id := 0, name := "C1" } }] } ∧
    SchemaUpdaterImpl.CreateIndex
        { latest_schema :=
            { tables := [{ id := 0, name := "T1",
                           columns := [{ id := 0, name := "C1" }],
                           primary_key :=
                             [{ column := { id := 0, name := "C1" } }] }] },
          global_names := [("Table", "T1")],
          next_table_id := 1, next_column_id := 1,
          maxTables := 10, maxIndexes := 10 }
        { index_name := "I", table_name := "T1",
          constraints :=
            [.primaryKey { key_part := [{ key_column_name := "C1" }] }] } =
      .ok { latest_schema :=
              { tables := [{ id := 0, name := "T1",
                             columns := [{ id := 0, name := "C1" }],
                             primary_key :=
                               [{ column := { id := 0, name := "C1" } }],
                             indexes := ["I"] }],
                indexes :=
                  [{ name := "I", indexed_table_name := "T1",
                     index_data_table :=
                       some { id := 1, name := "_index_data_I",
                              columns := [{ id := 1, name := "C1",
                                            source_column := some 0 }],
                              primary_key :=
                                [{ column := { id := 1, name := "C1",
                                               source_column := some 0 } }],
                              owner_index := some "I" },
                     key_columns :=
                       [{ column := { id := 1, name := "C1",
                                      source_column := some 0 } }] }] },
            global_names := [("Table", "T1"), ("Index", "I")],
            next_table_id := 2, next_column_id := 2,
            pending := [.backfillIndex "I"],
            maxTables := 10, maxIndexes := 10 } ∧
    (∃ idx dt,
      ({ latest_schema :=
           { tables := [{ id := 0, name := "T1",
                          columns := [{ id := 0, name := "C1" }],
                          primary_key :=
                            [{ column := { id := 0, name := "C1" } }],
                          indexes := ["I"] }],
             indexes :=
               [{ name := "I", indexed_table_name := "T1",
                  index_data_table :=
                    some { id := 1, name := "_index_data_I",
                           columns := [{ id := 1, name := "C1",
                                         source_column := some 0 }],
                           primary_key :=
                             [{ column := { id := 1, name := "C1",
                                            source_column := some 0 } }],
                           owner_index := some "I" },
                  key_columns :=
                    [{ column := { id := 1, name := "C1",
                                   source_column := some 0 } }] }] },
         global_names := [("Table", "T1"), ("Index", "I")],
         next_table_id := 2, next_column_id := 2,
         pending := [.backfillIndex "I"],
         maxTables := 10, maxIndexes := 10 } :
        ImplState).latest_schema.indexes.getLast? = some idx ∧
      idx.index_data_table = some dt ∧
      dt.primary_key.map (fun kc => (kc.column.name, kc.descending)) =
        ([{ key_column_name := "C1" }] : List Ddl.KeyPart).map
            (fun p => (p.key_column_name, p.desc)) ++
          (({ id := 0, name := "T1",
              columns := [{ id := 0, name := "C1" }],
              primary_key := [{ column := { id := 0, name := "C1" } }] } :
            Table).primary_key.filter (fun kc =>
              !(([{ key_column_name := "C1" }] : List Ddl.KeyPart).any
                (fun p => ciEq p.key_column_name kc.column.name)))).map
            (fun kc => (kc.column.name, kc.descending)) ∧
      idx.key_columns = dt.primary_key.take
        ([{ key_column_name := "C1" }] : List Ddl.KeyPart).length) :=
  ⟨rfl, rfl,
   createIndex_key_columns_prefix
     { latest_schema :=
         { tables := [{ id := 0, name := "T1",
                        columns := [{ id := 0, name := "C1" }],
                        primary_key :=
                          [{ column := { id := 0, name := "C1" } }] }] },
       global_names := [("Table", "T1")],
       next_table_id := 1, next_column_id := 1,
       maxTables := 10, maxIndexes := 10 }
     { index_name := "I", table_name := "T1",
       constraints :=
         [.primaryKey { key_part := [{ key_column_name := "C1" }] }] }
     { id := 0, name := "T1",
       columns := [{ id := 0, name := "C1" }],
       primary_key := [{ column := { id := 0, name := "C1" } }] }
     [] [] { key_part := [{ key_column_name := "C1" }] }
     { latest_schema :=
         { tables := [{ id := 0, name := "T1",
                        columns := [{ id := 0, name := "C1" }],
                        primary_key :=
                          [{ column := { id := 0, name := "C1" } }],
                        indexes := ["I"] }],
           indexes :=
             [{ name := "I", indexed_table_name := "T1",
                index_data_table :=
                  some { id := 1, name := "_index_data_I",
                         columns := [{ id := 1, name := "C1",
                                       source_column := some 0 }],
                         primary_key :=
                           [{ column := { id := 1, name := "C1",
                                          source_column := some 0 } }],
                         owner_index := some "I" },
                key_columns :=
                  [{ column := { id := 1, name := "C1",
                                 source_column := some 0 } }] }] },
       global_names := [("Table", "T1"), ("Index", "I")],
       next_table_id := 2, next_column_id := 2,
       pending := [.backfillIndex "I"],
       maxTables := 10, maxIndexes := 10 }
     rfl rfl (by simp) (by simp) (by simp) rfl⟩
